import Mathlib

/-!
Verification of the gpkg binary-package container implementation
(`lib/portage/gpkg.py`): a shallow embedding of the tar-stream writer,
the checksum/GPG helper, the manifest verifier and the metadata-update
operation, together with theorems about the claims of the specification.

Modelling conventions:
* Python `bytes`/`str` payloads are modelled by `String` (a byte/character
  sequence); hash functions, the external GPG processes and the inner-tar
  serialisation are parameters, since they are external to gpkg.py.
* Python exceptions are modelled by the inductive `VErr`; each constructor
  is one `raise` site of the source (the comments give the Python class).
* Container files are modelled at the entry level (`Entry`), matching how
  gpkg.py accesses them through `tarfile` (`getnames`, `getmember`,
  `extractfile`).
-/

namespace Gpkg

/-- Decidable equality of `Except` results, for evaluating the model on
concrete inputs. -/
instance {ε α : Type} [DecidableEq ε] [DecidableEq α] : DecidableEq (Except ε α) := fun x y =>
  match x, y with
  | .ok a, .ok b => decidable_of_iff (a = b) (by simp)
  | .error a, .error b => decidable_of_iff (a = b) (by simp)
  | .ok _, .error _ => isFalse (by simp)
  | .error _, .ok _ => isFalse (by simp)

/-- Errors. Each constructor corresponds to one `raise` site in gpkg.py;
the comment gives the Python exception class and message. -/
inductive VErr where
  /-- InvalidBinaryPackageFormat "Invalid gpkg file." -/
  | invalidFormat
  /-- InvalidBinaryPackageFormat "Duplicate file %s exist, potential attack?" -/
  | duplicateFile (f : String)
  /-- MissingSignature "Manifest not found" -/
  | manifestNotFound
  /-- MissingSignature "Manifest signature not found" -/
  | manifestSignatureNotFound
  /-- MissingSignature "%s signature not found" -/
  | signatureNotFound (f : String)
  /-- InvalidSignature "GPG verify failed" -/
  | invalidSignature
  /-- DigestException "invalied Manifest" -/
  | invalidManifest
  /-- DigestException "Manifest duplicate file exists" -/
  | duplicateManifestRecord
  /-- DigestException "Manifest invalied file size" -/
  | invalidManifestSize
  /-- DigestException "%s checksum not found" -/
  | checksumNotFound (f : String)
  /-- DigestException "%s file size mismatched" -/
  | fileSizeMismatch (f : String)
  /-- DigestException "%s checksum mismatched" -/
  | checksumMismatch (f : String)
  /-- DigestException "%s no supported checksum found" -/
  | noSupportedChecksum (f : String)
  /-- DigestException "Missing files: %s" (payload: the leftover records) -/
  | missingFiles (recs : List (List String))
  /-- DigestException "Unknown files exists: %s" (payload: the leftover names) -/
  | unknownFiles (fs : List String)
  /-- Python builtin ValueError ("x not in list", raised by `list.index`) -/
  | pyValueError
  /-- Python builtin IndexError ("list index out of range") -/
  | pyIndexError
  /-- OSError "writer closed" -/
  | osError
  /-- CompressorOperationFailed -/
  | compressorOperationFailed
  /-- FileNotFound -/
  | fileNotFound (f : String)
  /-- InvalidCompressionMethod -/
  | invalidCompressionMethod
  /-- GPGException -/
  | gpgError
deriving DecidableEq

/-- `self.gpkg_version` — the fixed name of the zero-length version marker. -/
def gpkg_version : String := "gpkg-1"

/-! Python primitives used by gpkg.py, modelled over the character list of
a `String` so that they evaluate by kernel reduction. -/

/-- Python `s.endswith(suf)`. -/
def pyEndsWith (s suf : String) : Bool := suf.data.isSuffixOf s.data

/-- Python `s.startswith(pre)`. -/
def pyStartsWith (s pre : String) : Bool := pre.data.isPrefixOf s.data

/-- Python `s.lower()`. -/
def pyToLower (s : String) : String := ⟨s.data.map Char.toLower⟩

/-- Python `s.splitlines()` (newline-separated logs and manifests). -/
def pySplitlines (s : String) : List String := (s.data.splitOn '\n').map List.asString

/-- Python `s.strip().split()`: split on whitespace runs, dropping empties. -/
def pySplit (s : String) : List String :=
  ((s.data.splitOnP Char.isWhitespace).filter (· ≠ [])).map List.asString

/-- Python `s[:-n]` for a drop of `n` trailing characters. -/
def pyDropRight (s : String) (n : Nat) : String := ⟨s.data.take (s.data.length - n)⟩

/-- Python `os.path.basename` for slash-separated container entry names. -/
def pyBasename (s : String) : String := ((s.data.splitOn '/').getLastD []).asString

/-- Python `os.path.dirname` for slash-separated container entry names
(entry names inside a gpkg container never start with a slash). -/
def pyDirname (s : String) : String :=
  (List.intercalate ['/'] (s.data.splitOn '/').dropLast).asString

/-- Python `os.path.join(base, f)` for the two-component joins of gpkg.py. -/
def pyJoin (base f : String) : String := if base = "" then f else base ++ "/" ++ f

/-- Python `list.remove(a)`: drop the first occurrence of `a` (gpkg.py only
calls it when the element is present). -/
def pyRemove {α : Type} [DecidableEq α] : List α → α → List α
  | [], _ => []
  | x :: rest, a => if x = a then rest else x :: pyRemove rest a

/-- Python `list.index(a)` as an `Option` (`none` models the `ValueError`). -/
def listIndex : List String → String → Option Nat
  | [], _ => none
  | x :: rest, a => if x = a then some 0 else (listIndex rest a).map (· + 1)

/-- Test whether the digit-string `s` is accepted by Python `int(s)`. -/
def pyIsInt (s : String) : Bool :=
  let t := if pyStartsWith s "-" || pyStartsWith s "+" then s.drop 1 else s
  !t.data.isEmpty && t.data.all Char.isDigit

/-- Value of Python `int(s)` on a token accepted by `pyIsInt`. -/
def pyInt (s : String) : Int :=
  let digits (l : List Char) : Nat := l.foldl (fun n c => n * 10 + (c.toNat - 48)) 0
  if pyStartsWith s "-" then -(digits (s.drop 1).data : Int)
  else if pyStartsWith s "+" then (digits (s.drop 1).data : Int)
  else (digits s.data : Int)

/-- The duplicate-name scan of `_verify_binpkg` (lines 1099-1105): walk the
name list with the already-seen accumulator, reporting the first duplicate. -/
def firstDup : List String → List String → Option String
  | [], _ => none
  | f :: rest, seen => if f ∈ seen then some f else firstDup rest (f :: seen)

/-! The manifest ledger.  A record is kept exactly as Python keeps it: the
token list of one `MANIFEST` line (`["MANIFEST", name, size, algo, hex, ...]`). -/

/-- `m[1]` of a manifest record (records produced by `_load_manifest` always
have at least three tokens, so the default is never taken on reachable input). -/
def recName (r : List String) : String := (r.get? 1).getD ""

/-- `m[2]` of a manifest record: the recorded size token. -/
def sizeTok (r : List String) : String := (r.get? 2).getD ""

/-- The record-removal loop shared by `_record_checksum` (lines 985-988) and
the signature-record cleanup of `_verify_binpkg`: remove the first record
whose name field equals `n`. -/
def remove_same_name : List (List String) → String → List (List String)
  | [], _ => []
  | c :: rest, n => if recName c = n then rest else c :: remove_same_name rest n

/-- `gpkg._record_checksum`: drop any previous record for the same entry name,
then append the fresh record (`["MANIFEST", name, str(size)]` followed by the
algorithm/hex-digest pairs of the checksum helper). -/
def record_checksum (cs : List (List String)) (name : String) (size : Nat)
    (digests : List (String × String)) : List (List String) :=
  remove_same_name cs name ++
    [["MANIFEST", name, toString size] ++ digests.flatMap (fun p => [p.1, p.2])]

/-- `gpkg._load_manifest`, inner loop: parse the remaining lines, carrying the
accumulated records and the already-seen file names. -/
def load_manifest_lines : List String → List (List String) → List String →
    Except VErr (List (List String))
  | [], acc, _ => .ok acc
  | line :: rest, acc, names =>
    if line = "" then load_manifest_lines rest acc names
    else
      let toks := pySplit line
      match toks.get? 0 with
      | none => .error .pyIndexError
      | some t0 =>
        if t0 ≠ "MANIFEST" then .error .invalidManifest
        else match toks.get? 1 with
          | none => .error .pyIndexError
          | some t1 =>
            if t1 ∈ names then .error .duplicateManifestRecord
            else match toks.get? 2 with
              | none => .error .pyIndexError
              | some t2 =>
                if pyIsInt t2 = false then .error .invalidManifestSize
                else load_manifest_lines rest (acc ++ [toks]) (names ++ [t1])

/-- `gpkg._load_manifest`. -/
def load_manifest (s : String) : Except VErr (List (List String)) :=
  load_manifest_lines (pySplitlines s) [] []

/-! The container, seen the way `_verify_binpkg` sees it through `tarfile`:
a list of named entries, each with a header size (`tarinfo.size`) and its
stored bytes (`extractfile(...).read()`). -/

/-- One container entry. -/
structure Entry where
  name : String
  size : Nat
  data : String
deriving DecidableEq

/-- `container.extractfile(f).read()` (callers only use it for present names). -/
def getData (es : List Entry) (f : String) : String :=
  ((es.find? (fun e => e.name = f)).map Entry.data).getD ""

/-- `container.getmember(f).size` (callers only use it for present names). -/
def getSize (es : List Entry) (f : String) : Nat :=
  ((es.find? (fun e => e.name = f)).map Entry.size).getD 0

/-- The search `for m in manifest: if m[1] == f: manifest_record = m`
(lines 1160-1162): the last matching record wins. -/
def lastMatch (manifest : List (List String)) (f : String) : Option (List String) :=
  manifest.foldl (fun acc m => if recName m = f then some m else acc) none

/-- The digest loop of `_verify_binpkg` (lines 1212-1222): for each configured
algorithm `c`, `manifest_record.index(c)` raises `ValueError` when `c` is
absent (the `except KeyError` clause of the source never catches it, because
`list.index` raises `ValueError`); on a found index, the recorded value one
token later is compared to the recomputed digest, lower-cased on both sides. -/
def digest_loop (H : String → String → String) (libs : List String)
    (r : List String) (data : String) (f : String) (count : Nat) : Except VErr Nat :=
  match libs with
  | [] => .ok count
  | c :: rest =>
    match listIndex r c with
    | none => .error .pyValueError
    | some i =>
      match r.get? (i + 1) with
      | none => .error .pyIndexError
      | some recorded =>
        if pyToLower (H c data) = pyToLower recorded then
          digest_loop H rest r data f (count + 1)
        else .error (.checksumMismatch f)

/-- The digest check for one entry: run the loop with `verified_hash_count = 0`
and require at least one verified hash (lines 1224-1225). -/
def digest_check (H : String → String → String) (libs : List String)
    (r : List String) (data : String) (f : String) : Except VErr Unit :=
  match digest_loop H libs r data f 0 with
  | .error e => .error e
  | .ok n => if n < 1 then .error (.noSupportedChecksum f) else .ok ()

/-- The environment threaded through the per-entry check loop of
`_verify_binpkg`: the hash family, the configured algorithm list
(`MANIFEST2_HASH_DEFAULTS` iteration order), the external GPG verify oracle
(success of `checksum_helper.finish` in VERIFY mode), the combined signature
condition `(request_signature or signature_exist) and verify_signature`, the
`metadata_only` flag, the container entries and the parsed manifest. -/
structure VEnv where
  H : String → String → String
  libs : List String
  gpg : String → String → Bool
  cond : Bool
  mo : Bool
  entries : List Entry
  manifest : List (List String)

/-- One iteration of the `for f in unverified_files.copy()` loop of
`_verify_binpkg` (lines 1151-1235).  Besides the outcome it returns the
updated unverified-file and unverified-record lists and the list of entry
names whose GPG signature verification was attempted (the creation of a
`checksum_helper` in VERIFY mode), which the real code performs as an
observable side effect. -/
def check_one (env : VEnv) (f : String) (uf : List String)
    (um : List (List String)) (att : List String) :
    Except VErr (List String × List (List String)) × List String :=
  if pyEndsWith f ".sig" then (.ok (uf, um), att)
  else
    match lastMatch env.manifest f with
    | none => (.error (.checksumNotFound f), att)
    | some r =>
      if pyInt (sizeTok r) ≠ (getSize env.entries f : Int) then
        (.error (.fileSizeMismatch f), att)
      else if pyStartsWith (pyBasename f) "image" && env.mo then
        let uf1 := pyRemove uf f
        let um1 := pyRemove um r
        if (f ++ ".sig") ∈ uf1 then
          (.ok (pyRemove uf1 (f ++ ".sig"), remove_same_name um1 (f ++ ".sig")), att)
        else (.ok (uf1, um1), att)
      else
        match (if env.cond then
                 (if (f ++ ".sig") ∈ uf then
                    (if env.gpg (getData env.entries (f ++ ".sig")) (getData env.entries f)
                     then (Except.ok (), att ++ [f])
                     else (Except.error VErr.invalidSignature, att ++ [f]))
                  else (Except.error (VErr.signatureNotFound f), att))
               else (Except.ok (), att) : Except VErr Unit × List String) with
        | (.error e, att1) => (.error e, att1)
        | (.ok (), att1) =>
          match digest_check env.H env.libs r (getData env.entries f) f with
          | .error e => (.error e, att1)
          | .ok () =>
            let uf1 := pyRemove uf f
            let um1 := pyRemove um r
            if (f ++ ".sig") ∈ uf1 then
              (.ok (pyRemove uf1 (f ++ ".sig"), remove_same_name um1 (f ++ ".sig")), att1)
            else (.ok (uf1, um1), att1)

/-- The whole per-entry loop over the snapshot `unverified_files.copy()`. -/
def check_files (env : VEnv) : List String → List String → List (List String) →
    List String → Except VErr (List String × List (List String)) × List String
  | [], uf, um, att => (.ok (uf, um), att)
  | f :: rest, uf, um, att =>
    match check_one env f uf um att with
    | (.ok (uf1, um1), att1) => check_files env rest uf1 um1 att1
    | (.error e, att1) => (.error e, att1)

/-- The tail of `gpkg._verify_binpkg` after the Manifest-signature step
(lines 1146-1245): parse the manifest, run the per-entry loop over the
snapshot of the remaining unverified files, then reject leftover manifest
records ("Missing files") and leftover container entries ("Unknown files
exists"), in that order. -/
def verify_rest (H : String → String → String) (libs : List String)
    (gpg : String → String → Bool) (cond mo : Bool) (entries : List Entry)
    (manifest_data : String) (uf : List String) (att : List String) :
    Except VErr Unit × List String :=
  match load_manifest manifest_data with
  | .error e => (.error e, att)
  | .ok manifest =>
    let env : VEnv := ⟨H, libs, gpg, cond, mo, entries, manifest⟩
    match check_files env uf uf manifest att with
    | (.error e, att1) => (.error e, att1)
    | (.ok (uf1, um1), att1) =>
      if um1 ≠ [] then (.error (.missingFiles um1), att1)
      else if uf1 ≠ [] then (.error (.unknownFiles uf1), att1)
      else (.ok (), att1)

/-- `gpkg._verify_binpkg` (lines 1085-1245), for an already-opened container.
Arguments: the hash family, the configured algorithm names, the GPG verify
oracle (signature bytes, signed bytes ↦ success of the external check), the
`binpkg-request-signature` flag, the `verify_signature` flag (the negation of
`binpkg-ignore-signature`), the `metadata_only` argument, and the container
entries.  Returns the outcome together with the list of entry names whose
signature verification was attempted. -/
def verify_binpkg (H : String → String → String) (libs : List String)
    (gpg : String → String → Bool) (request verify mo : Bool)
    (entries : List Entry) : Except VErr Unit × List String :=
  let files := entries.map Entry.name
  if gpkg_version ∈ files then
    let sig_exist := files.any (fun f => pyEndsWith f ".sig")
    match firstDup files [] with
    | some f => (.error (.duplicateFile f), [])
    | none =>
      let uf0 := pyRemove files gpkg_version
      if "Manifest" ∈ uf0 then
        let manifest_data := getData entries "Manifest"
        let cond := (request || sig_exist) && verify
        match (if cond then
                 (if "Manifest.sig" ∈ uf0 then
                    (if gpg (getData entries "Manifest.sig") manifest_data then
                       (Except.ok (pyRemove (pyRemove uf0 "Manifest") "Manifest.sig"),
                         ["Manifest"])
                     else (Except.error VErr.invalidSignature, ["Manifest"]))
                  else (Except.error VErr.manifestSignatureNotFound, []))
               else
                 let uf1 := pyRemove uf0 "Manifest"
                 (Except.ok (if "Manifest.sig" ∈ uf1 then pyRemove uf1 "Manifest.sig" else uf1),
                   []) : Except VErr (List String) × List String) with
        | (.error e, att) => (.error e, att)
        | (.ok uf, att) => verify_rest H libs gpg cond mo entries manifest_data uf att
      else (.error .manifestNotFound, [])
  else (.error .invalidFormat, [])

/-! `checksum_helper`: the GPG status-log check and the VERIFY-mode finish. -/

/-- `os.EX_OK`. -/
def EX_OK : Int := 0

/-- `checksum_helper._check_gpg_status` (lines 416-434): scan the status log
for a `GOODSIG` line and a `TRUST_ULTIMATE`/`TRUST_FULLY` line; absent either,
raise InvalidSignature even though GPG itself exited successfully. -/
def check_gpg_status (gpg_status : String) : Except VErr Unit :=
  let flags := (pySplitlines gpg_status).foldl
    (fun (fl : Bool × Bool) l =>
      (fl.1 || pyStartsWith l "[GNUPG:] GOODSIG",
       fl.2 || (pyStartsWith l "[GNUPG:] TRUST_ULTIMATE" || pyStartsWith l "[GNUPG:] TRUST_FULLY")))
    (false, false)
  if !flags.1 || !flags.2 then .error .invalidSignature else .ok ()

/-- `checksum_helper.finish` in VERIFY mode (lines 457-479): on a zero exit
status the status log decides; on a non-zero exit status the signature is
invalid outright. -/
def finish_verify (return_code : Int) (gpg_output : String) : Except VErr Unit :=
  if return_code = EX_OK then check_gpg_status gpg_output
  else .error .invalidSignature

/-! Format selection (`_get_tar_format_from_stats`). -/

/-- The tar formats distinguished by gpkg.py (`tarfile.USTAR_FORMAT`,
`tarfile.GNU_FORMAT`, `tarfile.PAX_FORMAT`). -/
inductive TarFormat where
  | ustar
  | gnu
  | pax
deriving DecidableEq

/-- `gpkg._get_tar_format_from_stats` (lines 1326-1354). -/
def get_tar_format_from_stats (image_max_path_length image_max_file_size
    image_total_size : Nat) : TarFormat × TarFormat :=
  let container_tar_format : TarFormat :=
    if image_total_size < 8000000000 then .ustar else .gnu
  let image_tar_format : TarFormat :=
    if image_max_file_size < 8000000000 then .ustar else .gnu
  let image_tar_format :=
    if image_max_path_length > 200 then TarFormat.gnu else image_tar_format
  (container_tar_format, image_tar_format)

/-! `tar_stream_writer`: a seekable byte stream, the outer container object,
and the open/write/close/kill life cycle. -/

/-- A seekable file of bytes with a current position. -/
structure FileObj where
  data : List Nat
  pos : Nat
deriving DecidableEq

/-- `fileobj.write(bs)`: overwrite at the current position, extending at the
end (the writer only ever overwrites a full previously-written region or
appends at the end). -/
def fwrite (f : FileObj) (bs : List Nat) : FileObj :=
  { data := f.data.take f.pos ++ bs ++ f.data.drop (f.pos + bs.length)
    pos := f.pos + bs.length }

/-- `fileobj.seek(0, io.SEEK_END)`. -/
def fseekEnd (f : FileObj) : FileObj := { f with pos := f.data.length }

/-- `fileobj.seek(n)`. -/
def fseek (f : FileObj) (n : Nat) : FileObj := { f with pos := n }

/-- `fileobj.tell()`. -/
def ftell (f : FileObj) : Nat := f.pos

/-- The tar header data of one entry (`tarfile.TarInfo`): gpkg.py only ever
patches the `size` field between the two `tobuf` calls. -/
structure TarInfo where
  name : String
  size : Nat
deriving DecidableEq

/-- Fixed-width little-endian byte encoding of a natural number (the size
field of a tar header occupies a fixed number of octets). -/
def natBytes : Nat → Nat → List Nat
  | 0, _ => []
  | w + 1, n => (n % 256) :: natBytes w (n / 256)

/-- `tarinfo.tobuf(...)`: a header block whose length depends only on the
entry name, so rewriting the header with a corrected size keeps its length —
the property `tar_stream_writer.close` relies on when it patches the header
in place. -/
def tobuf (ti : TarInfo) : List Nat :=
  ti.name.data.map Char.toNat ++ [0] ++ natBytes 12 ti.size

/-- The outer container (`tarfile.TarFile` object): backing stream, the
`offset` bookkeeping field and the member list. -/
structure TContainer where
  fileobj : FileObj
  offset : Nat
  members : List TarInfo
deriving DecidableEq

/-- The state of a `tar_stream_writer`. -/
structure WriterState where
  tarinfo : TarInfo
  container : TContainer
  begin_position : Nat
  header_size : Nat
  hasProc : Bool
  closed : Bool
  killed : Bool
deriving DecidableEq

/-- `tar_stream_writer.__init__` (lines 64-103): seek to the container end,
record the begin position, write the placeholder header, bump `offset`;
`hasProc` tells whether an external compressor subprocess was started. -/
def writer_open (ti : TarInfo) (hasProc : Bool) (c : TContainer) : WriterState :=
  let fo := fseekEnd c.fileobj
  let bp := ftell fo
  let hdr := tobuf ti
  let fo2 := fwrite fo hdr
  { tarinfo := ti
    container := { fileobj := fo2, offset := c.offset + hdr.length, members := c.members }
    begin_position := bp
    header_size := hdr.length
    hasProc := hasProc
    closed := false
    killed := false }

/-- `tar_stream_writer.write` (lines 147-161): raise OSError when closed;
with a compressor the bytes go to its stdin (the stored bytes then arrive
through the read thread, not modelled here), otherwise straight to the
container stream. -/
def writer_write (w : WriterState) (ds : List Nat) : Except VErr WriterState :=
  if w.closed then .error .osError
  else if w.hasProc then .ok w
  else .ok { w with container :=
    { w.container with fileobj := fwrite w.container.fileobj ds } }

/-- A sequence of `write` calls. -/
def writer_write_all (w : WriterState) (ds : List (List Nat)) : Except VErr WriterState :=
  ds.foldlM writer_write w

/-- `tar_stream_writer.close` (lines 163-210).  With an active compressor the
exit status is checked first and a non-zero status raises
CompressorOperationFailed — the `killed` flag is **not** consulted here.
Then: compute the final size from the end-of-stream offset, zero-pad to the
512-byte block boundary, seek back and rewrite the header with the final
size, restore the end position, update `offset` and append the finalized
tarinfo to the member list. -/
def writer_close (w : WriterState) (exit_status : Int) : Except VErr WriterState :=
  if w.closed then .ok w
  else if w.hasProc && exit_status != EX_OK then .error .compressorOperationFailed
  else
    let fo := fseekEnd w.container.fileobj
    let endPos := ftell fo
    let fsize := endPos - w.begin_position - w.header_size
    let ti : TarInfo := { w.tarinfo with size := fsize }
    let rem := fsize % 512
    let fo2 := if rem > 0 then fwrite fo (List.replicate (512 - rem) 0) else fo
    let fo3 := fwrite (fseek fo2 w.begin_position) (tobuf ti)
    let fo4 := fseekEnd fo3
    .ok { w with
      tarinfo := ti
      container :=
        { fileobj := fo4
          offset := ftell fo4
          members := w.container.members ++ [ti] }
      closed := true }

/-- `tar_stream_writer.kill` (lines 114-122): only acts when a compressor is
active; sets `killed`, kills the process and then calls `close()` — whose
non-zero-exit check runs regardless of `killed`. -/
def writer_kill (w : WriterState) (exit_status : Int) : Except VErr WriterState :=
  if w.hasProc then writer_close { w with killed := true } exit_status
  else .ok w

/-- The `except BrokenPipeError` handler of
`tar_stream_writer._cmd_read_thread` (lines 137-141): raise
CompressorOperationFailed unless the writer was killed. -/
def cmd_read_thread_on_broken_pipe (killed : Bool) : Except VErr Unit :=
  if !killed then .error .compressorOperationFailed else .ok ()

/-- The `except BrokenPipeError` handler of `tar_stream_reader._write_thread`
(lines 289-291): raise CompressorOperationFailed only when not killed. -/
def write_thread_on_broken_pipe (killed : Bool) : Except VErr Unit :=
  if killed = false then .error .compressorOperationFailed else .ok ()

/-- `tar_stream_reader.close` (lines 312-332): with a decompressor, a
non-zero exit status raises CompressorOperationFailed — unless the reader
was killed. -/
def reader_close (has_proc killed : Bool) (exit_status : Int) : Except VErr Unit :=
  if has_proc then
    if exit_status != EX_OK then
      if !killed then .error .compressorOperationFailed else .ok ()
    else .ok ()
  else .ok ()

/-- `tar_stream_reader.kill` (lines 293-301): set `killed`, kill the process,
then `close()`. -/
def reader_kill (has_proc : Bool) (exit_status : Int) : Except VErr Unit :=
  if has_proc then reader_close true true exit_status else .ok ()

/-! `gpkg.get_metadata` (lines 565-580) over the unpacked metadata mapping. -/

/-- Python `dict.get(k, None)` over the name→bytes mapping produced by
`unpack_metadata` (a dict built by insertion, so a later binding of the same
key wins). -/
def dict_get (md : List (String × String)) (k : String) : Option String :=
  (md.reverse.find? (fun p => p.1 = k)).map Prod.snd

/-- `get_metadata` with a single string key: `metadata.get(want, None)`. -/
def get_metadata_one (md : List (String × String)) (want : String) : Option String :=
  dict_get md want

/-- `get_metadata` with a key list: `{k: metadata.get(k, None) for k in want}`. -/
def get_metadata_many (md : List (String × String)) (want : List String) :
    List (String × Option String) :=
  want.map (fun k => (k, dict_get md k))

/-! `gpkg.update_metadata` and its helpers. -/

/-- `self.ext_list`, in Python dict insertion order. -/
def ext_list : List (String × String) :=
  [("gzip", ".gz"), ("bzip2", ".bz2"), ("lz4", ".lz4"), ("lzip", ".lz"),
   ("lzop", ".lzo"), ("xz", ".xz"), ("zstd", ".zst")]

/-- `gpkg._create_tarinfo` (lines 1461-1474): the entry name of an inner
sub-archive, `<base_name>/<file_name>.tar<ext>`. -/
def create_tarinfo_name (base_name : String) (compression : Option String)
    (file_name : String) : Except VErr String :=
  match compression with
  | none => .ok (pyJoin base_name (file_name ++ ".tar"))
  | some c =>
    match (ext_list.find? (fun p => p.1 = c)).map Prod.snd with
    | some e => .ok (pyJoin base_name (file_name ++ ".tar" ++ e))
    | none => .error .invalidCompressionMethod

/-- `gpkg._extract_filename_compression` (lines 1476-1489). -/
def extract_filename_compression (file_name : String) :
    Except VErr (String × Option String) :=
  let fn := pyBasename file_name
  if pyEndsWith fn ".tar" then .ok (pyDropRight fn 4, none)
  else
    match ext_list.find? (fun p => pyEndsWith fn (".tar" ++ p.2)) with
    | some p => .ok (pyDropRight fn (".tar" ++ p.2).length, some p.1)
    | none => .error .invalidCompressionMethod

/-- First pass of `gpkg._get_inner_tarinfo`: only entries whose directory
name equals the package base name. -/
def find_inner_base (base file_name : String) : List Entry → Option (Entry × Option String)
  | [] => none
  | e :: rest =>
    if pyDirname e.name = base then
      match extract_filename_compression e.name with
      | .error _ => find_inner_base base file_name rest
      | .ok (n, c) =>
        if n = file_name then some (e, c) else find_inner_base base file_name rest
    else find_inner_base base file_name rest

/-- Second pass of `gpkg._get_inner_tarinfo`: any entry of matching file name
(the warned base-name-mismatch fallback). -/
def find_inner_any (file_name : String) : List Entry → Option (Entry × Option String)
  | [] => none
  | e :: rest =>
    match extract_filename_compression e.name with
    | .error _ => find_inner_any file_name rest
    | .ok (n, c) =>
      if n = file_name then some (e, c) else find_inner_any file_name rest

/-- `gpkg._get_inner_tarinfo` (lines 1491-1533). -/
def get_inner_tarinfo (base_name : Option String) (entries : List Entry)
    (file_name : String) : Except VErr (Entry × Option String) :=
  if gpkg_version ∈ entries.map Entry.name then
    match find_inner_base (base_name.getD "") file_name entries with
    | some r => .ok r
    | none =>
      match find_inner_any file_name entries with
      | some r => .ok r
      | none => .error (.fileNotFound file_name)
  else .error .invalidFormat

/-- The serialized Manifest text of `_add_manifest` (lines 1003-1006):
one `" ".join(record)` line per accumulated record. -/
def manifest_text (cs : List (List String)) : String :=
  cs.foldl (fun acc m => acc ++ String.intercalate " " m ++ "\n") ""

/-- `gpkg._add_manifest` without the container side effect: the Manifest
entry and, when signing, its signature entry produced by the sign oracle. -/
def add_manifest (sign : Option (String → String)) (cs : List (List String)) :
    List Entry :=
  let data := manifest_text cs
  let e : Entry := ⟨"Manifest", data.length, data⟩
  match sign with
  | none => [e]
  | some sg => [e, ⟨"Manifest.sig", (sg data).length, sg data⟩]

/-- `gpkg._add_metadata` (lines 796-836): serialize the metadata mapping as
an inner tar (`mkTar`, external `tarfile` machinery), pipe it through the
configured compressor when present, stream it into a new entry, record its
checksum, and add the signature entry when signing.  Returns the produced
entries and the updated record list. -/
def add_metadata (H : String → String → String) (libs : List String)
    (sign : Option (String → String)) (base_name : String)
    (comp : Option (String × (String → String)))
    (mkTar : List (String × String) → String)
    (metadata : List (String × String)) (cs : List (List String)) :
    Except VErr (List Entry × List (List String)) :=
  match create_tarinfo_name base_name (comp.map Prod.fst) "metadata" with
  | .error e => .error e
  | .ok name =>
    let raw := mkTar metadata
    let stored := match comp with
      | none => raw
      | some pr => pr.2 raw
    let e : Entry := ⟨name, stored.length, stored⟩
    let cs1 := record_checksum cs name stored.length
      (libs.map (fun c => (c, H c stored)))
    match sign with
    | none => .ok ([e], cs1)
    | some sg => .ok ([e, ⟨name ++ ".sig", (sg stored).length, sg stored⟩], cs1)

/-- A gpkg container file on disk: detected outer tar format plus entries. -/
structure GFile where
  format : TarFormat
  entries : List Entry
deriving DecidableEq

/-- The file system, mapping paths to container files. -/
def FS : Type := String → Option GFile

/-- Write (create or overwrite) a path. -/
def fsSet (fs : FS) (p : String) (c : GFile) : FS :=
  fun q => if q = p then some c else fs q

/-- `shutil.move(src, dst)` for files: `dst` receives the content of `src`,
which disappears. -/
def fsMove (fs : FS) (src dst : String) : FS :=
  fun q => if q = src then none else if q = dst then fs src else fs q

/-- `gpkg.update_metadata` (lines 741-794).  Parameters mirror the state of a
`gpkg` instance (`base_name`, compression choice, signing choice) and the
externals (hash family, configured algorithms, GPG oracles, inner-tar
serializer).  `checksums0` is the accumulated record list from any previous
operation; the method clears it first.  Steps: verify the current file, open
a process-unique temporary file, write version marker + fresh metadata, copy
the old image entry (and its signature entry, when present) bytes unchanged,
carry the old image's manifest record over, write the new Manifest, and
atomically replace the original path. -/
def update_metadata (H : String → String → String) (libs : List String)
    (gpg : String → String → Bool) (request verify : Bool)
    (sign : Option (String → String)) (base_name : Option String)
    (comp : Option (String × (String → String)))
    (mkTar : List (String × String) → String)
    (fs : FS) (gpkg_file : String) (pid : Nat)
    (metadata : List (String × String)) (checksums0 : List (List String)) :
    Except VErr FS :=
  match fs gpkg_file with
  | none => .error (.fileNotFound gpkg_file)
  | some old =>
    match (verify_binpkg H libs gpg request verify false old.entries).1 with
    | .error e => .error e
    | .ok () =>
      -- self.checksums = []  (the incoming `checksums0` is discarded)
      let _ := checksums0
      let cs : List (List String) := []
      let tmp := gpkg_file ++ "." ++ toString pid
      match add_metadata H libs sign (base_name.getD "") comp mkTar metadata cs with
      | .error e => .error e
      | .ok (mdEntries, cs1) =>
        match get_inner_tarinfo base_name old.entries "image" with
        | .error e => .error e
        | .ok (imgEntry, _) =>
          match load_manifest (getData old.entries "Manifest") with
          | .error e => .error e
          | .ok manifest_old =>
            let cs2 := match manifest_old.find? (fun m => recName m = imgEntry.name) with
              | some m => cs1 ++ [m]
              | none => cs1
            let imgSig : List Entry :=
              match old.entries.find? (fun e => e.name = imgEntry.name ++ ".sig") with
              | some e => [e]
              | none => []
            let newEntries : List Entry :=
              ⟨gpkg_version, 0, ""⟩ :: mdEntries ++ [imgEntry] ++ imgSig ++
                add_manifest sign cs2
            let newC : GFile := ⟨old.format, newEntries⟩
            .ok (fsMove (fsSet fs tmp newC) tmp gpkg_file)

/-- Classification of the errors that belong to signature verification
(Python classes MissingSignature and InvalidSignature). -/
def sigRelated : VErr → Bool
  | .manifestNotFound => true
  | .manifestSignatureNotFound => true
  | .signatureNotFound _ => true
  | .invalidSignature => true
  | _ => false

/-- The reconciliation conditions under which the per-entry loop verifies an
entry named `n` against its record `r` and removes both: not a signature
entry, `r` is the manifest record found for `n`, the recorded size matches
the entry's stored size, and the digest check succeeds. -/
def goodPair (env : VEnv) (n : String) (r : List String) : Prop :=
  pyEndsWith n ".sig" = false ∧
  lastMatch env.manifest n = some r ∧
  pyInt (sizeTok r) = (getSize env.entries n : Int) ∧
  digest_check env.H env.libs r (getData env.entries n) n = .ok ()

instance (env : VEnv) (n : String) (r : List String) : Decidable (goodPair env n r) := by
  unfold goodPair
  infer_instance

/-- A toy hash family used to evaluate the model on concrete inputs
(the real hash implementations live outside gpkg.py and are parameters of
the embedding). -/
def toyHash (c d : String) : String := c ++ ":" ++ d

/-- The reconciliation conditions of the amended completeness claim: the
container is `version :: real-entries ++ [Manifest] ++ extras`, the parsed
manifest is the record list of the real entries followed by `extraRecs`,
names are unique, no real entry collides with the reserved names, and every
real entry satisfies `goodPair` for its record. -/
def cleanScenario (H : String → String → String) (libs : List String)
    (gpg : String → String → Bool) (vsz : Nat) (vdat : String) (mEnt : Entry)
    (pairs : List (Entry × List String)) (extras : List Entry)
    (extraRecs : List (List String)) : Prop :=
  mEnt.name = "Manifest" ∧
  ((⟨gpkg_version, vsz, vdat⟩ :: pairs.map Prod.fst ++ [mEnt] ++ extras
      : List Entry).map Entry.name).Nodup ∧
  (∀ n ∈ (pairs.map Prod.fst).map Entry.name, n ≠ gpkg_version ∧ n ≠ "Manifest") ∧
  "Manifest.sig" ∉ (pairs.map Prod.fst).map Entry.name ++ extras.map Entry.name ∧
  load_manifest mEnt.data = .ok (pairs.map Prod.snd ++ extraRecs) ∧
  (∀ p ∈ pairs,
    goodPair ⟨H, libs, gpg, false, false,
      ⟨gpkg_version, vsz, vdat⟩ :: pairs.map Prod.fst ++ [mEnt] ++ extras,
      pairs.map Prod.snd ++ extraRecs⟩ p.1.name p.2) ∧
  (∀ p ∈ pairs,
    (p.1.name ++ ".sig") ∉ (pairs.map Prod.fst).map Entry.name ++ extras.map Entry.name)

instance (H : String → String → String) (libs : List String)
    (gpg : String → String → Bool) (vsz : Nat) (vdat : String) (mEnt : Entry)
    (pairs : List (Entry × List String)) (extras : List Entry)
    (extraRecs : List (List String)) :
    Decidable (cleanScenario H libs gpg vsz vdat mEnt pairs extras extraRecs) := by
  unfold cleanScenario
  infer_instance

-- ===================================================================
-- Theorems
-- ===================================================================

set_option maxRecDepth 10000

/-- Claim C5: format selection from the pre-scan triple is deterministic:
the outer container uses the simple (USTAR) format exactly when the total
size is below the fixed 8,000,000,000-byte threshold (GNU otherwise), and
the image sub-archive uses the extended (GNU) format exactly when the
largest file reaches that threshold or the longest path exceeds the
200-byte safety margin (USTAR otherwise). -/
theorem c5_format_selection (p f t : Nat) :
    ((get_tar_format_from_stats p f t).1 = .ustar ↔ t < 8000000000) ∧
    ((get_tar_format_from_stats p f t).1 = .gnu ↔ 8000000000 ≤ t) ∧
    ((get_tar_format_from_stats p f t).2 = .gnu ↔ (8000000000 ≤ f ∨ 200 < p)) ∧
    ((get_tar_format_from_stats p f t).2 = .ustar ↔ (f < 8000000000 ∧ p ≤ 200)) := by
  unfold get_tar_format_from_stats
  by_cases h1 : t < 8000000000 <;> by_cases h2 : f < 8000000000 <;>
    by_cases h3 : p > 200 <;>
    simp [h1, h2, h3] <;> omega

/-- The two status flags accumulated by the `_check_gpg_status` loop are the
`any` of the corresponding line predicates. -/
theorem gpg_flags_foldl (ls : List String) (a b : Bool) :
    ls.foldl (fun (fl : Bool × Bool) l =>
      (fl.1 || pyStartsWith l "[GNUPG:] GOODSIG",
       fl.2 || (pyStartsWith l "[GNUPG:] TRUST_ULTIMATE" ||
         pyStartsWith l "[GNUPG:] TRUST_FULLY"))) (a, b) =
    (a || ls.any (fun l => pyStartsWith l "[GNUPG:] GOODSIG"),
     b || ls.any (fun l => pyStartsWith l "[GNUPG:] TRUST_ULTIMATE" ||
       pyStartsWith l "[GNUPG:] TRUST_FULLY")) := by
  induction ls generalizing a b with
  | nil => simp
  | cons x xs ih => simp [List.foldl_cons, List.any_cons, ih, Bool.or_assoc]

/-- Claim C4: in verifying mode, when the external GPG process exits with
success (status `os.EX_OK`), the helper accepts if and only if the captured
status log has both a `[GNUPG:] GOODSIG` line and a `[GNUPG:] TRUST_FULLY`
or `[GNUPG:] TRUST_ULTIMATE` line; otherwise it rejects with
InvalidSignature despite the successful exit — in particular a log whose
trust line is only `TRUST_MARGINAL` (a key trusted below "full") is
rejected. -/
theorem c4_gpg_status_check :
    (∀ out : String,
      (finish_verify 0 out = .ok () ↔
        ((pySplitlines out).any (fun l => pyStartsWith l "[GNUPG:] GOODSIG") = true ∧
         (pySplitlines out).any (fun l =>
           pyStartsWith l "[GNUPG:] TRUST_ULTIMATE" ||
             pyStartsWith l "[GNUPG:] TRUST_FULLY") = true)) ∧
      (finish_verify 0 out = .ok () ∨
        finish_verify 0 out = .error .invalidSignature)) ∧
    finish_verify 0 "[GNUPG:] GOODSIG key uid\n[GNUPG:] TRUST_MARGINAL 0 pgp" =
      .error .invalidSignature := by
  constructor
  · intro out
    unfold finish_verify check_gpg_status
    rw [gpg_flags_foldl]
    simp only [EX_OK, if_pos rfl, Bool.false_or]
    cases h1 : (pySplitlines out).any (fun l => pyStartsWith l "[GNUPG:] GOODSIG") <;>
      cases h2 : (pySplitlines out).any (fun l =>
        pyStartsWith l "[GNUPG:] TRUST_ULTIMATE" ||
          pyStartsWith l "[GNUPG:] TRUST_FULLY") <;>
      simp
  · decide

/-- Claim C10: `get_metadata` never raises on a missing key: a string key
yields the stored value when present and `none` when absent, and a key list
yields a mapping that covers exactly the requested keys. -/
theorem c10_get_metadata (md : List (String × String)) (k : String)
    (want : List String) :
    (get_metadata_one md k = none ↔ k ∉ md.map Prod.fst) ∧
    (∀ v, get_metadata_one md k = some v → (k, v) ∈ md) ∧
    (k ∈ want → (k, dict_get md k) ∈ get_metadata_many md want) ∧
    (∀ p ∈ get_metadata_many md want, p.1 ∈ want) := by
  refine ⟨?_, ?_, ?_, ?_⟩
  · unfold get_metadata_one dict_get
    simp only [Option.map_eq_none', List.find?_eq_none, List.mem_reverse,
      List.mem_map, decide_eq_true_eq]
    constructor
    · rintro h ⟨x, hx, he⟩
      exact h x hx he
    · intro h x hx he
      exact h ⟨x, hx, he⟩
  · intro v hv
    unfold get_metadata_one dict_get at hv
    rw [Option.map_eq_some'] at hv
    obtain ⟨p, hp, he⟩ := hv
    have hm : p ∈ md := List.mem_reverse.mp (List.mem_of_find?_eq_some hp)
    have hk : p.1 = k := by simpa using List.find?_some hp
    obtain ⟨a, b⟩ := p
    simp only at hk he
    rw [← hk, ← he]
    exact hm
  · intro hk
    exact List.mem_map.mpr ⟨k, hk, rfl⟩
  · intro p hp
    obtain ⟨k1, hk1, he⟩ := List.mem_map.mp hp
    rw [← he]
    exact hk1

/-- Witness for C10 at a concrete metadata mapping. -/
theorem c10_witness :
    ("A", dict_get [("A", "x")] "A") ∈ get_metadata_many [("A", "x")] ["A", "B"] :=
  (c10_get_metadata [("A", "x")] "A" ["A", "B"]).2.2.1 (by decide)

/-- The record-removal loop of `_record_checksum` only drops elements. -/
theorem remove_same_name_sublist (cs : List (List String)) (n : String) :
    List.Sublist (remove_same_name cs n) cs := by
  induction cs with
  | nil => simp [remove_same_name]
  | cons c rest ih =>
    unfold remove_same_name
    by_cases hc : recName c = n
    · simp [hc]
    · simp only [hc, if_false]
      exact ih.cons₂ c

/-- After `_record_checksum` dropped the old record for `n`, no record named
`n` remains (for a record list with unique names). -/
theorem not_mem_remove_same_name (cs : List (List String)) (n : String)
    (h : (cs.map recName).Nodup) : n ∉ (remove_same_name cs n).map recName := by
  induction cs with
  | nil => simp [remove_same_name]
  | cons c rest ih =>
    unfold remove_same_name
    by_cases hc : recName c = n
    · simp only [hc, if_true]
      rw [List.map_cons, List.nodup_cons] at h
      rw [← hc]
      exact h.1
    · simp only [hc, if_false, List.map_cons, List.mem_cons]
      rintro (he | hm)
      · exact hc he.symm
      · rw [List.map_cons, List.nodup_cons] at h
        exact ih h.2 hm

/-- Claim C9: the accumulated manifest-record list never contains two records
with the same entry name: `_record_checksum` first removes any existing
record of the new entry's name, so its uniqueness invariant is preserved by
every recording operation. -/
theorem c9_record_uniqueness (cs : List (List String)) (name : String)
    (size : Nat) (dgs : List (String × String))
    (h : (cs.map recName).Nodup) :
    ((record_checksum cs name size dgs).map recName).Nodup := by
  unfold record_checksum
  rw [List.map_append, List.nodup_append]
  have hrn : recName (["MANIFEST", name, toString size] ++
      dgs.flatMap (fun p => [p.1, p.2])) = name := rfl
  refine ⟨((remove_same_name_sublist cs name).map recName).nodup h, ?_, ?_⟩
  · simp
  · intro a ha hb
    simp only [List.map_cons, List.map_nil, List.mem_singleton, hrn] at hb
    rw [hb] at ha
    exact not_mem_remove_same_name cs name h ha

/-- Witness for C9 at a concrete record list. -/
theorem c9_witness :
    ((record_checksum [["MANIFEST", "a", "1", "X", "h"]] "a" 2 [("X", "h2")]).map
      recName).Nodup :=
  c9_record_uniqueness [["MANIFEST", "a", "1", "X", "h"]] "a" 2 [("X", "h2")] (by decide)

/-- Claim C2, evaluated at the failing input.  The configured algorithm list
is `["BLAKE2B", "SHA512"]` and the manifest record carries only a `SHA512`
pair whose digest matches the recomputed one (second and third conjuncts),
so per the claim (and per the source's own `# Checksum method not supported`
comment) the entry should be accepted with one verified hash.  The code
instead evaluates `manifest_record.index("BLAKE2B")`, which raises
`ValueError` — the surrounding `except KeyError` clause never catches it,
because `list.index` raises `ValueError`, not `KeyError` — so verification
dies with an uncaught `ValueError` (first and last conjuncts). -/
theorem c2_keyerror_bug :
    digest_check toyHash ["BLAKE2B", "SHA512"]
      ["MANIFEST", "f", "1", "SHA512", "SHA512:d"] "d" "f" = .error .pyValueError ∧
    pyToLower (toyHash "SHA512" "d") = pyToLower "SHA512:d" ∧
    listIndex ["MANIFEST", "f", "1", "SHA512", "SHA512:d"] "SHA512" = some 3 ∧
    (verify_binpkg toyHash ["BLAKE2B", "SHA512"] (fun _ _ => true) false true false
      [⟨"gpkg-1", 0, ""⟩, ⟨"f", 1, "d"⟩,
       ⟨"Manifest", 29, "MANIFEST f 1 SHA512 SHA512:d\n"⟩]).1 = .error .pyValueError := by
  decide

/-- Counterexample to claim C8 as stated: `tar_stream_writer.close` checks
the compressor's exit status without consulting the `killed` flag, so
`kill()` — which invokes `close()` on a just-killed (hence non-zero-exit)
process — raises CompressorOperationFailed. -/
theorem c8_counterexample :
    writer_kill (writer_open ⟨"a", 0⟩ true ⟨⟨[], 0⟩, 0, []⟩) (-9) =
      .error .compressorOperationFailed := by decide

/-- Claim C8 as amended: the reader's feeder thread and the writer's read
thread swallow BrokenPipeError when `killed` is set, and the reader's
`close()` after `kill()` completes without raising; but the writer's
`close()` after `kill()` still raises CompressorOperationFailed whenever the
killed compressor's exit status is non-zero, because its exit-status check
does not consult the `killed` flag. -/
theorem c8_amended (exit_status : Int) (w : WriterState) :
    (reader_kill true exit_status = .ok ()) ∧
    (reader_kill false exit_status = .ok ()) ∧
    (write_thread_on_broken_pipe true = .ok ()) ∧
    (cmd_read_thread_on_broken_pipe true = .ok ()) ∧
    (w.closed = false → w.hasProc = true → exit_status ≠ 0 →
      writer_kill w exit_status = .error .compressorOperationFailed) := by
  refine ⟨?_, rfl, rfl, rfl, ?_⟩
  · unfold reader_kill reader_close
    cases hb : exit_status != EX_OK <;> simp [hb]
  · intro hc hp hne
    unfold writer_kill writer_close
    simp [hp, hc, EX_OK, bne_iff_ne, hne]

/-- Witness for the amended C8: a concrete killed writer whose compressor
exited with status 1. -/
theorem c8_witness :
    writer_kill (writer_open ⟨"a", 0⟩ true ⟨⟨[], 0⟩, 0, []⟩) 1 =
      .error .compressorOperationFailed :=
  (c8_amended 1 (writer_open ⟨"a", 0⟩ true ⟨⟨[], 0⟩, 0, []⟩)).2.2.2.2
    (by decide) (by decide) (by decide)

/-- The fixed-width size encoding always occupies its width. -/
theorem natBytes_length (w n : Nat) : (natBytes w n).length = w := by
  induction w generalizing n with
  | zero => simp [natBytes]
  | succ k ih => simp [natBytes, ih]

/-- The header length depends only on the entry name, not on the size — the
property that lets `close` patch the header in place. -/
theorem tobuf_length (ti : TarInfo) : (tobuf ti).length = ti.name.data.length + 13 := by
  simp [tobuf, natBytes_length]

/-- A write at the end of the stream appends. -/
theorem fwrite_at_end (f : FileObj) (bs : List Nat) (h : f.pos = f.data.length) :
    fwrite f bs = ⟨f.data ++ bs, f.data.length + bs.length⟩ := by
  unfold fwrite
  rw [h]
  have he : f.data.take f.data.length ++ bs ++
      f.data.drop (f.data.length + bs.length) = f.data ++ bs := by
    rw [List.take_length, List.drop_eq_nil_of_le (by omega), List.append_nil]
  rw [he]

/-- Overwriting a middle region of the stream with a same-length block. -/
theorem overwrite_mid {α : Type} (d0 h0 h1 rest : List α) (hlen : h1.length = h0.length) :
    List.take d0.length (d0 ++ (h0 ++ rest)) ++ h1 ++
      List.drop (d0.length + h1.length) (d0 ++ (h0 ++ rest)) = d0 ++ (h1 ++ rest) := by
  have ht : List.take d0.length (d0 ++ (h0 ++ rest)) = d0 := List.take_left' rfl
  have hd : List.drop (d0.length + h1.length) (d0 ++ (h0 ++ rest)) = rest := by
    rw [hlen, ← List.length_append d0 h0, ← List.append_assoc]
    exact List.drop_left _ _
  rw [ht, hd, List.append_assoc]

/-- In-place rewrite of the header block between the original data and the
payload, as performed by the seek-back in `close`. -/
theorem fwrite_overwrite {d0 h0 h1 rest : List Nat} (hlen : h1.length = h0.length) :
    fwrite ⟨d0 ++ (h0 ++ rest), d0.length⟩ h1 =
      ⟨d0 ++ (h1 ++ rest), d0.length + h1.length⟩ := by
  unfold fwrite
  simp only
  rw [overwrite_mid d0 h0 h1 rest hlen]

/-- Streaming writes into an open, compressor-less writer succeed and append
exactly the written bytes at the end of the container stream. -/
theorem writer_write_all_ok (ds : List (List Nat)) :
    ∀ (w : WriterState), w.closed = false → w.hasProc = false →
    w.container.fileobj.pos = w.container.fileobj.data.length →
    writer_write_all w ds = .ok
      { w with container := { w.container with fileobj :=
          ⟨w.container.fileobj.data ++ ds.flatten,
           (w.container.fileobj.data ++ ds.flatten).length⟩ } } := by
  induction ds with
  | nil =>
    intro w hc hp hpos
    obtain ⟨ti, ⟨⟨dat, pos⟩, off, mem⟩, bp, hs, hpr, cl, kl⟩ := w
    simp only at hpos
    simp [writer_write_all, hpos]
    rfl
  | cons d rest ih =>
    intro w hc hp hpos
    unfold writer_write_all
    rw [List.foldlM_cons]
    have hw : writer_write w d = .ok { w with container := { w.container with fileobj :=
        ⟨w.container.fileobj.data ++ d, w.container.fileobj.data.length + d.length⟩ } } := by
      unfold writer_write
      rw [hc, hp]
      simp [fwrite_at_end _ _ hpos]
    rw [hw]
    show writer_write_all _ rest = _
    rw [ih _ (by simp [hc]) (by simp [hp]) (by simp)]
    congr 2
    simp [List.append_assoc]

/-- `tar_stream_writer.close` on an open, compressor-less writer whose
stream holds the original container data, then the placeholder header, then
the streamed payload: the final size is the end offset minus the recorded
begin offset minus the header size; the stream is padded to the 512-byte
boundary; the header is rewritten in place with the final size; and the
finalized tarinfo is appended to the member list. -/
theorem writer_close_ok (nm : String) (sz0 : Nat) (d0 payload : List Nat)
    (pos off : Nat) (mem : List TarInfo) (kl : Bool) :
    writer_close
      { tarinfo := ⟨nm, sz0⟩,
        container :=
          { fileobj := ⟨d0 ++ (tobuf ⟨nm, sz0⟩ ++ payload), pos⟩,
            offset := off,
            members := mem },
        begin_position := d0.length,
        header_size := (tobuf ⟨nm, sz0⟩).length,
        hasProc := false,
        closed := false,
        killed := kl } 0 =
    .ok
      { tarinfo := ⟨nm, payload.length⟩,
        container :=
          { fileobj := ⟨d0 ++ (tobuf ⟨nm, payload.length⟩ ++ (payload ++
                (if payload.length % 512 = 0 then []
                 else List.replicate (512 - payload.length % 512) 0))),
              (d0 ++ (tobuf ⟨nm, payload.length⟩ ++ (payload ++
                (if payload.length % 512 = 0 then []
                 else List.replicate (512 - payload.length % 512) 0)))).length⟩,
            offset := (d0 ++ (tobuf ⟨nm, payload.length⟩ ++ (payload ++
                (if payload.length % 512 = 0 then []
                 else List.replicate (512 - payload.length % 512) 0)))).length,
            members := mem ++ [⟨nm, payload.length⟩] },
        begin_position := d0.length,
        header_size := (tobuf ⟨nm, sz0⟩).length,
        hasProc := false,
        closed := true,
        killed := kl } := by
  have hsz : (d0 ++ (tobuf (⟨nm, sz0⟩ : TarInfo) ++ payload)).length - d0.length -
      (tobuf (⟨nm, sz0⟩ : TarInfo)).length = payload.length := by
    simp only [List.length_append]
    omega
  have hhdr : (tobuf (⟨nm, payload.length⟩ : TarInfo)).length
      = (tobuf (⟨nm, sz0⟩ : TarInfo)).length := by
    rw [tobuf_length, tobuf_length]
  unfold writer_close
  simp only [Bool.false_eq_true, if_false, Bool.false_and, fseekEnd, ftell, fseek, hsz]
  by_cases hrem : payload.length % 512 = 0
  · rw [if_neg (by omega : ¬ payload.length % 512 > 0)]
    rw [fwrite_overwrite hhdr]
    simp [hrem]
  · rw [if_pos (by omega : payload.length % 512 > 0)]
    rw [fwrite_at_end ⟨d0 ++ (tobuf ⟨nm, sz0⟩ ++ payload),
      (d0 ++ (tobuf ⟨nm, sz0⟩ ++ payload)).length⟩
      (List.replicate (512 - payload.length % 512) 0) rfl]
    simp only [List.append_assoc]
    rw [fwrite_overwrite hhdr]
    simp [hrem]

/-- Claim C6: for every `tar_stream_writer` whose writes all succeed (a
fresh compressor-less writer accepts every write), `close()` sets the
entry's final size to the container's end-of-stream offset after writing
minus the offset recorded at open minus the header size; when that size is
not a multiple of 512 it appends exactly `512 - size % 512` NUL bytes of
padding; it seeks back to the recorded header position and rewrites the
header containing the final size; and it appends the finalized entry
metadata to the container's member list — so the header on the stream
describes exactly the bytes actually stored for the entry. -/
theorem c6_stream_writer_close (c : TContainer) (ti : TarInfo) (ds : List (List Nat)) :
    ∃ w1 w2,
      writer_write_all (writer_open ti false c) ds = .ok w1 ∧
      writer_close w1 0 = .ok w2 ∧
      w2.tarinfo = ⟨ti.name, ds.flatten.length⟩ ∧
      ds.flatten.length =
        w1.container.fileobj.data.length - w1.begin_position - w1.header_size ∧
      w2.container.fileobj.data =
        c.fileobj.data ++ tobuf ⟨ti.name, ds.flatten.length⟩ ++ ds.flatten ++
          (if ds.flatten.length % 512 = 0 then []
           else List.replicate (512 - ds.flatten.length % 512) 0) ∧
      w2.container.members = c.members ++ [⟨ti.name, ds.flatten.length⟩] ∧
      w2.container.offset = w2.container.fileobj.data.length := by
  obtain ⟨⟨cdata, cpos⟩, coff, cmem⟩ := c
  have hopen : writer_open ti false ⟨⟨cdata, cpos⟩, coff, cmem⟩ =
      { tarinfo := ti,
        container :=
          { fileobj := ⟨cdata ++ tobuf ti, cdata.length + (tobuf ti).length⟩,
            offset := coff + (tobuf ti).length,
            members := cmem },
        begin_position := cdata.length,
        header_size := (tobuf ti).length,
        hasProc := false,
        closed := false,
        killed := false } := by
    unfold writer_open
    simp only [fseekEnd, ftell]
    rw [fwrite_at_end ⟨cdata, cdata.length⟩ (tobuf ti) rfl]
  rw [hopen]
  have h1 := writer_write_all_ok ds
    { tarinfo := ti,
      container :=
        { fileobj := ⟨cdata ++ tobuf ti, cdata.length + (tobuf ti).length⟩,
          offset := coff + (tobuf ti).length,
          members := cmem },
      begin_position := cdata.length,
      header_size := (tobuf ti).length,
      hasProc := false,
      closed := false,
      killed := false } rfl rfl (by simp)
  rw [List.append_assoc] at h1
  have h2 := writer_close_ok ti.name ti.size cdata ds.flatten
    ((cdata ++ (tobuf ti ++ ds.flatten)).length)
    (coff + (tobuf ti).length) cmem false
  refine ⟨_, _, h1, h2, rfl, ?_, ?_, rfl, rfl⟩
  · simp only [List.length_append, tobuf_length]
    omega
  · simp [List.append_assoc]

/-- Elements surviving `list.remove` were in the original list. -/
theorem pyRemove_subset {α : Type} [DecidableEq α] (l : List α) (a : α) :
    ∀ x ∈ pyRemove l a, x ∈ l := by
  induction l with
  | nil => simp [pyRemove]
  | cons y rest ih =>
    intro x hx
    unfold pyRemove at hx
    by_cases hy : y = a
    · rw [if_pos hy] at hx
      exact List.mem_cons_of_mem _ hx
    · rw [if_neg hy] at hx
      rcases List.mem_cons.mp hx with h | h
      · exact h ▸ List.mem_cons_self _ _
      · exact List.mem_cons_of_mem _ (ih x h)

/-- `list.remove` keeps every element different from the removed one. -/
theorem mem_pyRemove_of_ne {α : Type} [DecidableEq α] {l : List α} {a x : α}
    (hx : x ∈ l) (hne : x ≠ a) : x ∈ pyRemove l a := by
  induction l with
  | nil => simp at hx
  | cons y rest ih =>
    unfold pyRemove
    rcases List.mem_cons.mp hx with h | h
    · subst h
      rw [if_neg hne]
      exact List.mem_cons_self _ _
    · by_cases hy : y = a
      · rw [if_pos hy]
        exact h
      · rw [if_neg hy]
        exact List.mem_cons_of_mem _ (ih h)

/-- The errors of the per-entry digest loop are digest errors or Python
builtins, never signature errors. -/
theorem digest_loop_err (H : String → String → String) (libs : List String)
    (r : List String) (data f : String) :
    ∀ (k : Nat) (e : VErr), digest_loop H libs r data f k = .error e →
      sigRelated e = false := by
  induction libs with
  | nil =>
    intro k e h
    simp [digest_loop] at h
  | cons c rest ih =>
    intro k e h
    unfold digest_loop at h
    cases hidx : listIndex r c with
    | none =>
      simp only [hidx] at h
      injection h with h1
      subst h1
      rfl
    | some i =>
      simp only [hidx] at h
      cases hg : r.get? (i + 1) with
      | none =>
        simp only [hg] at h
        injection h with h1
        subst h1
        rfl
      | some rec1 =>
        simp only [hg] at h
        by_cases hcmp : pyToLower (H c data) = pyToLower rec1
        · rw [if_pos hcmp] at h
          exact ih _ _ h
        · rw [if_neg hcmp] at h
          injection h with h1
          subst h1
          rfl

/-- The errors of `digest_check` are never signature errors. -/
theorem digest_check_err (H : String → String → String) (libs : List String)
    (r : List String) (data f : String) (e : VErr)
    (h : digest_check H libs r data f = .error e) : sigRelated e = false := by
  unfold digest_check at h
  cases hl : digest_loop H libs r data f 0 with
  | error e1 =>
    simp only [hl] at h
    injection h with h1
    subst h1
    exact digest_loop_err H libs r data f 0 e1 hl
  | ok n =>
    simp only [hl] at h
    by_cases hn : n < 1
    · rw [if_pos hn] at h
      injection h with h1
      subst h1
      rfl
    · rw [if_neg hn] at h
      cases h

/-- The errors of the Manifest parser are never signature errors. -/
theorem load_manifest_lines_err :
    ∀ (lines : List String) (acc : List (List String)) (names : List String) (e : VErr),
      load_manifest_lines lines acc names = .error e → sigRelated e = false := by
  intro lines
  induction lines with
  | nil =>
    intro acc names e h
    cases h
  | cons line rest ih =>
    intro acc names e h
    unfold load_manifest_lines at h
    by_cases hl : line = ""
    · rw [if_pos hl] at h
      exact ih _ _ _ h
    · rw [if_neg hl] at h
      cases h0 : (pySplit line).get? 0 with
      | none =>
        simp only [h0] at h
        injection h with h1
        subst h1
        rfl
      | some t0 =>
        simp only [h0] at h
        by_cases ht0 : t0 ≠ "MANIFEST"
        · rw [if_pos ht0] at h
          injection h with h1
          subst h1
          rfl
        · rw [if_neg ht0] at h
          cases h1 : (pySplit line).get? 1 with
          | none =>
            simp only [h1] at h
            injection h with h2
            subst h2
            rfl
          | some t1 =>
            simp only [h1] at h
            by_cases ht1 : t1 ∈ names
            · rw [if_pos ht1] at h
              injection h with h2
              subst h2
              rfl
            · rw [if_neg ht1] at h
              cases h2 : (pySplit line).get? 2 with
              | none =>
                simp only [h2] at h
                injection h with h3
                subst h3
                rfl
              | some t2 =>
                simp only [h2] at h
                by_cases ht2 : pyIsInt t2 = false
                · rw [if_pos ht2] at h
                  injection h with h3
                  subst h3
                  rfl
                · rw [if_neg ht2] at h
                  exact ih _ _ _ h

/-- The errors of `_load_manifest` are never signature errors. -/
theorem load_manifest_err (s : String) (e : VErr)
    (h : load_manifest s = .error e) : sigRelated e = false :=
  load_manifest_lines_err _ _ _ _ h

/-- With the combined signature condition false, one step of the per-entry
loop attempts no signature verification and can only fail with digest or
format errors, never signature errors. -/
theorem check_one_cond_false (env : VEnv) (hc : env.cond = false) (f : String)
    (uf : List String) (um : List (List String)) (att : List String) :
    (check_one env f uf um att).2 = att ∧
    ∀ e, (check_one env f uf um att).1 = .error e → sigRelated e = false := by
  unfold check_one
  cases hsig : pyEndsWith f ".sig" with
  | true =>
    refine ⟨by simp [hsig], ?_⟩
    intro e he
    simp [hsig] at he
  | false =>
    cases hlm : lastMatch env.manifest f with
    | none =>
      refine ⟨by simp [hsig, hlm], ?_⟩
      intro e he
      simp [hsig, hlm] at he
      subst he
      rfl
    | some r =>
      by_cases hsz : pyInt (sizeTok r) = (getSize env.entries f : Int)
      · cases him : pyStartsWith (pyBasename f) "image" && env.mo with
        | true =>
          by_cases hin : (f ++ ".sig") ∈ pyRemove uf f
          · refine ⟨by simp [hsig, hlm, hsz, him, hin], ?_⟩
            intro e he
            simp [hsig, hlm, hsz, him, hin] at he
          · refine ⟨by simp [hsig, hlm, hsz, him, hin], ?_⟩
            intro e he
            simp [hsig, hlm, hsz, him, hin] at he
        | false =>
          cases hdc : digest_check env.H env.libs r (getData env.entries f) f with
          | error e1 =>
            refine ⟨by simp [hsig, hlm, hsz, him, hc, hdc], ?_⟩
            intro e he
            simp [hsig, hlm, hsz, him, hc, hdc] at he
            subst he
            exact digest_check_err env.H env.libs r (getData env.entries f) f e1 hdc
          | ok u =>
            cases u
            by_cases hin : (f ++ ".sig") ∈ pyRemove uf f
            · refine ⟨by simp [hsig, hlm, hsz, him, hc, hdc, hin], ?_⟩
              intro e he
              simp [hsig, hlm, hsz, him, hc, hdc, hin] at he
            · refine ⟨by simp [hsig, hlm, hsz, him, hc, hdc, hin], ?_⟩
              intro e he
              simp [hsig, hlm, hsz, him, hc, hdc, hin] at he
      · refine ⟨by simp [hsig, hlm, hsz], ?_⟩
        intro e he
        simp [hsig, hlm, hsz] at he
        subst he
        rfl

/-- With the combined signature condition false, the whole per-entry loop
attempts no signature verification and never raises a signature error. -/
theorem check_files_cond_false (env : VEnv) (hc : env.cond = false) :
    ∀ (snapshot uf : List String) (um : List (List String)) (att : List String),
    (check_files env snapshot uf um att).2 = att ∧
    ∀ e, (check_files env snapshot uf um att).1 = .error e → sigRelated e = false := by
  intro snapshot
  induction snapshot with
  | nil =>
    intro uf um att
    exact ⟨rfl, by simp [check_files]⟩
  | cons f rest ih =>
    intro uf um att
    unfold check_files
    obtain ⟨ho2, ho1⟩ := check_one_cond_false env hc f uf um att
    rcases hres : check_one env f uf um att with ⟨r, att1⟩
    rw [hres] at ho2 ho1
    simp only at ho2 ho1
    cases r with
    | ok p =>
      obtain ⟨uf1, um1⟩ := p
      simp only [hres]
      subst ho2
      exact ih uf1 um1 att1
    | error e1 =>
      simp only [hres]
      refine ⟨ho2, ?_⟩
      intro e he
      injection he with h1
      subst h1
      exact ho1 e1 rfl

/-- One loop step only appends to the list of attempted verifications. -/
theorem check_one_att_mono (env : VEnv) (f : String) (uf : List String)
    (um : List (List String)) (att : List String) :
    ∃ ext, (check_one env f uf um att).2 = att ++ ext := by
  unfold check_one
  cases hsig : pyEndsWith f ".sig" with
  | true => exact ⟨[], by simp [hsig]⟩
  | false =>
    cases hlm : lastMatch env.manifest f with
    | none => exact ⟨[], by simp [hsig, hlm]⟩
    | some r =>
      by_cases hsz : pyInt (sizeTok r) = (getSize env.entries f : Int)
      · cases him : pyStartsWith (pyBasename f) "image" && env.mo with
        | true =>
          by_cases hin : (f ++ ".sig") ∈ pyRemove uf f
          · exact ⟨[], by simp [hsig, hlm, hsz, him, hin]⟩
          · exact ⟨[], by simp [hsig, hlm, hsz, him, hin]⟩
        | false =>
          cases hcnd : env.cond with
          | false =>
            cases hdc : digest_check env.H env.libs r (getData env.entries f) f with
            | error e1 => exact ⟨[], by simp [hsig, hlm, hsz, him, hcnd, hdc]⟩
            | ok u =>
              cases u
              by_cases hin : (f ++ ".sig") ∈ pyRemove uf f
              · exact ⟨[], by simp [hsig, hlm, hsz, him, hcnd, hdc, hin]⟩
              · exact ⟨[], by simp [hsig, hlm, hsz, him, hcnd, hdc, hin]⟩
          | true =>
            by_cases hin : (f ++ ".sig") ∈ uf
            · cases hg : env.gpg (getData env.entries (f ++ ".sig")) (getData env.entries f) with
              | false => exact ⟨[f], by simp [hsig, hlm, hsz, him, hcnd, hin, hg]⟩
              | true =>
                cases hdc : digest_check env.H env.libs r (getData env.entries f) f with
                | error e1 => exact ⟨[f], by simp [hsig, hlm, hsz, him, hcnd, hin, hg, hdc]⟩
                | ok u =>
                  cases u
                  by_cases hin2 : (f ++ ".sig") ∈ pyRemove uf f
                  · exact ⟨[f], by simp [hsig, hlm, hsz, him, hcnd, hin, hg, hdc, hin2]⟩
                  · exact ⟨[f], by simp [hsig, hlm, hsz, him, hcnd, hin, hg, hdc, hin2]⟩
            · exact ⟨[], by simp [hsig, hlm, hsz, him, hcnd, hin]⟩
      · exact ⟨[], by simp [hsig, hlm, hsz]⟩

/-- The loop only appends to the list of attempted verifications. -/
theorem check_files_att_mono (env : VEnv) :
    ∀ (snapshot uf : List String) (um : List (List String)) (att : List String),
    ∃ ext, (check_files env snapshot uf um att).2 = att ++ ext := by
  intro snapshot
  induction snapshot with
  | nil =>
    intro uf um att
    exact ⟨[], by simp [check_files]⟩
  | cons f rest ih =>
    intro uf um att
    unfold check_files
    obtain ⟨ext1, hext1⟩ := check_one_att_mono env f uf um att
    rcases hres : check_one env f uf um att with ⟨r, att1⟩
    rw [hres] at hext1
    simp only at hext1
    cases r with
    | ok p =>
      obtain ⟨uf1, um1⟩ := p
      simp only [hres]
      obtain ⟨ext2, hext2⟩ := ih uf1 um1 att1
      exact ⟨ext1 ++ ext2, by rw [hext2, hext1, List.append_assoc]⟩
    | error e1 =>
      simp only [hres]
      exact ⟨ext1, hext1⟩

/-- With the combined signature condition false, the verification tail
attempts nothing and never raises a signature error. -/
theorem verify_rest_cond_false (H : String → String → String) (libs : List String)
    (gpg : String → String → Bool) (mo : Bool) (entries : List Entry)
    (md : String) (uf : List String) :
    (verify_rest H libs gpg false mo entries md uf []).2 = [] ∧
    ∀ e, (verify_rest H libs gpg false mo entries md uf []).1 = .error e →
      sigRelated e = false := by
  unfold verify_rest
  cases hload : load_manifest md with
  | error e =>
    simp only [hload]
    refine ⟨by trivial, ?_⟩
    intro e1 he
    injection he with h1
    subst h1
    exact load_manifest_err _ _ hload
  | ok m =>
    simp only [hload]
    obtain ⟨h2, h1⟩ := check_files_cond_false ⟨H, libs, gpg, false, mo, entries, m⟩ rfl uf uf m []
    rcases hres : check_files ⟨H, libs, gpg, false, mo, entries, m⟩ uf uf m [] with ⟨r, att1⟩
    rw [hres] at h2 h1
    simp only at h2 h1
    cases r with
    | error e1 =>
      simp only [hres]
      refine ⟨h2, ?_⟩
      intro e he
      injection he with hx
      subst hx
      exact h1 e1 rfl
    | ok p =>
      obtain ⟨uf1, um1⟩ := p
      simp only [hres]
      by_cases hum : um1 ≠ []
      · simp only [if_pos hum]
        exact ⟨h2, by intro e he; injection he with hx; subst hx; rfl⟩
      · simp only [if_neg hum]
        by_cases huf : uf1 ≠ []
        · simp only [if_pos huf]
          exact ⟨h2, by intro e he; injection he with hx; subst hx; rfl⟩
        · simp only [if_neg huf]
          exact ⟨h2, by intro e he; cases he⟩

/-- The verification tail only appends to the attempt list. -/
theorem verify_rest_att_mono (H : String → String → String) (libs : List String)
    (gpg : String → String → Bool) (cond mo : Bool) (entries : List Entry)
    (md : String) (uf : List String) (att : List String) :
    ∃ ext, (verify_rest H libs gpg cond mo entries md uf att).2 = att ++ ext := by
  unfold verify_rest
  cases hload : load_manifest md with
  | error e => exact ⟨[], by simp⟩
  | ok m =>
    obtain ⟨ext1, hext1⟩ :=
      check_files_att_mono ⟨H, libs, gpg, cond, mo, entries, m⟩ uf uf m att
    rcases hres : check_files ⟨H, libs, gpg, cond, mo, entries, m⟩ uf uf m att with ⟨r, att1⟩
    rw [hres] at hext1
    simp only at hext1
    cases r with
    | error e1 =>
      simp only [hres]
      exact ⟨ext1, hext1⟩
    | ok p =>
      obtain ⟨uf1, um1⟩ := p
      simp only [hres]
      by_cases hum : um1 ≠ []
      · simp only [if_pos hum]
        exact ⟨ext1, hext1⟩
      · simp only [if_neg hum]
        by_cases huf : uf1 ≠ []
        · simp only [if_pos huf]
          exact ⟨ext1, hext1⟩
        · simp only [if_neg huf]
          exact ⟨ext1, hext1⟩

/-- Claim C1: signature verification in `_verify_binpkg` is attempted if and
only if the skip flag (`binpkg-ignore-signature`, the negation of the
`verify` argument) is false AND (the require flag (`binpkg-request-signature`,
the `request` argument) is true OR some entry name ends with ".sig").  When
the condition is false, no verification is attempted (the attempt list stays
empty) and no MissingSignature/InvalidSignature rejection can occur — the
Manifest and any Manifest.sig are accepted as far as signatures are
concerned.  When the condition is true: if Manifest.sig is present, the
Manifest signature verification is attempted first; if Manifest.sig is
absent, verification rejects with MissingSignature before attempting
anything. -/
theorem c1_signature_policy (H : String → String → String) (libs : List String)
    (gpg : String → String → Bool) (request verify mo : Bool) (entries : List Entry)
    (hver : gpkg_version ∈ entries.map Entry.name)
    (hdup : firstDup (entries.map Entry.name) [] = none)
    (hman : "Manifest" ∈ entries.map Entry.name) :
    (((request || (entries.map Entry.name).any (fun f => pyEndsWith f ".sig")) && verify)
        = false →
      (verify_binpkg H libs gpg request verify mo entries).2 = [] ∧
      ∀ e, (verify_binpkg H libs gpg request verify mo entries).1 = .error e →
        sigRelated e = false) ∧
    (((request || (entries.map Entry.name).any (fun f => pyEndsWith f ".sig")) && verify)
        = true →
      "Manifest.sig" ∈ entries.map Entry.name →
      (verify_binpkg H libs gpg request verify mo entries).2.head? = some "Manifest") ∧
    (((request || (entries.map Entry.name).any (fun f => pyEndsWith f ".sig")) && verify)
        = true →
      "Manifest.sig" ∉ entries.map Entry.name →
      (verify_binpkg H libs gpg request verify mo entries).1 =
        .error .manifestSignatureNotFound ∧
      (verify_binpkg H libs gpg request verify mo entries).2 = []) := by
  have hmu : "Manifest" ∈ pyRemove (entries.map Entry.name) gpkg_version :=
    mem_pyRemove_of_ne hman (by decide)
  refine ⟨?_, ?_, ?_⟩
  · intro hcond
    unfold verify_binpkg
    simp only [if_pos hver, hdup, if_pos hmu, hcond, Bool.false_eq_true, if_false]
    exact verify_rest_cond_false H libs gpg mo entries _ _
  · intro hcond hsig
    have hsu : "Manifest.sig" ∈ pyRemove (entries.map Entry.name) gpkg_version :=
      mem_pyRemove_of_ne hsig (by decide)
    unfold verify_binpkg
    simp only [if_pos hver, hdup, if_pos hmu, hcond, if_true, if_pos hsu]
    by_cases hg : gpg (getData entries "Manifest.sig") (getData entries "Manifest")
    · simp only [hg, if_true]
      obtain ⟨ext, hext⟩ := verify_rest_att_mono H libs gpg true
        mo entries (getData entries "Manifest")
        (pyRemove (pyRemove (pyRemove (entries.map Entry.name) gpkg_version) "Manifest")
          "Manifest.sig") ["Manifest"]
      rw [hext]
      rfl
    · simp only [hg, Bool.false_eq_true, if_false]
      rfl
  · intro hcond hsig
    have hsn : "Manifest.sig" ∉ pyRemove (entries.map Entry.name) gpkg_version :=
      fun h => hsig (pyRemove_subset _ _ _ h)
    unfold verify_binpkg
    simp only [if_pos hver, hdup, if_pos hmu, hcond, if_true, if_neg hsn]
    refine ⟨?_, ?_⟩ <;> trivial

/-- Witness for C1: a concrete container with Manifest and Manifest.sig under
the require-signature policy attempts the Manifest signature verification
first. -/
theorem c1_witness :
    (verify_binpkg toyHash [] (fun _ _ => true) true true false
      [⟨"gpkg-1", 0, ""⟩, ⟨"Manifest", 0, ""⟩, ⟨"Manifest.sig", 1, "S"⟩]).2.head?
      = some "Manifest" :=
  (c1_signature_policy toyHash [] (fun _ _ => true) true true false
    [⟨"gpkg-1", 0, ""⟩, ⟨"Manifest", 0, ""⟩, ⟨"Manifest.sig", 1, "S"⟩]
    (by decide) (by decide) (by decide)).2.1 (by decide) (by decide)

/-- Counterexample to claim C3 as stated: a container entry with no matching
manifest record ("foo", unlisted in an otherwise empty Manifest) is rejected
inside the per-entry loop with the "checksum not found" digest error, not
with the "unknown files" digest error the claim names for that situation. -/
theorem c3_counterexample :
    (verify_binpkg toyHash ["SHA512"] (fun _ _ => true) false true false
      [⟨"gpkg-1", 0, ""⟩, ⟨"Manifest", 0, ""⟩, ⟨"foo", 1, "x"⟩]).1 =
      .error (.checksumNotFound "foo") ∧
    ∀ fs, VErr.checksumNotFound "foo" ≠ VErr.unknownFiles fs := by
  refine ⟨by decide, ?_⟩
  intro fs h
  cases h

/-- A duplicate-free name list passes the duplicate scan. -/
theorem firstDup_none : ∀ (l seen : List String), l.Nodup →
    (∀ a ∈ l, a ∉ seen) → firstDup l seen = none := by
  intro l
  induction l with
  | nil => intro seen _ _; rfl
  | cons f rest ih =>
    intro seen hnd hsn
    unfold firstDup
    rw [if_neg (hsn f (List.mem_cons_self f rest))]
    refine ih (f :: seen) (List.nodup_cons.mp hnd).2 ?_
    intro a ha hmem
    rcases List.mem_cons.mp hmem with h | h
    · subst h
      exact (List.nodup_cons.mp hnd).1 ha
    · exact hsn a (List.mem_cons_of_mem _ ha) h

/-- `list.remove` passes over a prefix not containing the element. -/
theorem pyRemove_append_not_mem {α : Type} [DecidableEq α] {l1 : List α}
    (l2 : List α) {a : α} (h : a ∉ l1) :
    pyRemove (l1 ++ l2) a = l1 ++ pyRemove l2 a := by
  induction l1 with
  | nil => rfl
  | cons x rest ih =>
    have hx : x ≠ a := fun hh => h (List.mem_cons.mpr (Or.inl hh.symm))
    rw [List.cons_append]
    simp only [pyRemove, if_neg hx]
    rw [ih (fun hm => h (List.mem_cons_of_mem _ hm)), List.cons_append]

/-- `find?` by name skips a prefix of entries with different names. -/
theorem find?_name_append (l rest : List Entry) (n : String)
    (h : ∀ e ∈ l, e.name ≠ n) :
    (l ++ rest).find? (fun e => e.name = n) = rest.find? (fun e => e.name = n) := by
  induction l with
  | nil => rfl
  | cons e tl ih =>
    rw [List.cons_append]
    rw [List.find?_cons_of_neg _ (by simp [h e (List.mem_cons_self e tl)])]
    exact ih (fun x hx => h x (List.mem_cons_of_mem _ hx))

/-- The clean step of the per-entry loop: an entry at the head of the
unverified list with a matching record at the head of the unverified record
list, matching size and digests, no signature entry and no sign policy, is
verified and removed together with its record. -/
theorem check_one_clean (env : VEnv) (hc : env.cond = false) (hmo : env.mo = false)
    (n : String) (r : List String) (tl : List String) (tlr : List (List String))
    (att : List String)
    (hgs : pyEndsWith n ".sig" = false)
    (hlm : lastMatch env.manifest n = some r)
    (hsz : pyInt (sizeTok r) = (getSize env.entries n : Int))
    (hdc : digest_check env.H env.libs r (getData env.entries n) n = .ok ())
    (hsig : (n ++ ".sig") ∉ tl) :
    check_one env n (n :: tl) (r :: tlr) att = (.ok (tl, tlr), att) := by
  unfold check_one
  simp only [hgs, Bool.false_eq_true, if_false, hlm]
  rw [if_neg (fun hne => hne hsz)]
  rw [show (pyStartsWith (pyBasename n) "image" && env.mo) = false by
    rw [hmo]; exact Bool.and_false _]
  simp only [Bool.false_eq_true, if_false, hc, hdc]
  rw [show pyRemove (n :: tl) n = tl by unfold pyRemove; rw [if_pos rfl]]
  rw [show pyRemove (r :: tlr) r = tlr by unfold pyRemove; rw [if_pos rfl]]
  rw [if_neg hsig]

/-- The per-entry loop verifies a clean prefix of name/record pairs and
continues on the remaining snapshot with the pairs and their records
removed. -/
theorem check_files_clean (env : VEnv) (hc : env.cond = false) (hmo : env.mo = false) :
    ∀ (pairs : List (String × List String)) (ufRest : List String)
      (umRest : List (List String)) (att : List String),
    (∀ p ∈ pairs, goodPair env p.1 p.2) →
    (∀ p ∈ pairs, (p.1 ++ ".sig") ∉ pairs.map Prod.fst ++ ufRest) →
    check_files env (pairs.map Prod.fst ++ ufRest) (pairs.map Prod.fst ++ ufRest)
      (pairs.map Prod.snd ++ umRest) att =
      check_files env ufRest ufRest umRest att := by
  intro pairs
  induction pairs with
  | nil => intro ufRest umRest att _ _; rfl
  | cons p rest ih =>
    intro ufRest umRest att hgood hsig
    obtain ⟨n, r⟩ := p
    simp only [List.map_cons, List.cons_append]
    obtain ⟨hg1, hg2, hg3, hg4⟩ := hgood (n, r) (List.mem_cons_self _ _)
    have hs1 : (n ++ ".sig") ∉ rest.map Prod.fst ++ ufRest := by
      intro hm
      exact hsig (n, r) (List.mem_cons_self _ _) (List.mem_cons_of_mem _ hm)
    have hstep := check_one_clean env hc hmo n r (rest.map Prod.fst ++ ufRest)
      (rest.map Prod.snd ++ umRest) att hg1 hg2 hg3 hg4 hs1
    simp only [check_files, hstep]
    refine ih ufRest umRest att (fun q hq => hgood q (List.mem_cons_of_mem _ hq)) ?_
    intro q hq hm
    exact hsig q (List.mem_cons_of_mem _ hq) (List.mem_cons_of_mem _ hm)

/-- Running `_verify_binpkg` (signature policy off, full verification) on a
clean-scenario container reduces to the per-entry loop over the extra
entries with the extra records, followed by the missing-files and
unknown-files checks. -/
theorem verify_clean_run (H : String → String → String) (libs : List String)
    (gpg : String → String → Bool) (request : Bool) (vsz : Nat) (vdat : String)
    (mEnt : Entry) (pairs : List (Entry × List String)) (extras : List Entry)
    (extraRecs : List (List String))
    (hcs : cleanScenario H libs gpg vsz vdat mEnt pairs extras extraRecs) :
    verify_binpkg H libs gpg request false false
      (⟨gpkg_version, vsz, vdat⟩ :: pairs.map Prod.fst ++ [mEnt] ++ extras) =
    (match check_files
        ⟨H, libs, gpg, false, false,
          ⟨gpkg_version, vsz, vdat⟩ :: pairs.map Prod.fst ++ [mEnt] ++ extras,
          pairs.map Prod.snd ++ extraRecs⟩
        (extras.map Entry.name) (extras.map Entry.name) extraRecs [] with
     | (.error e, att1) => (.error e, att1)
     | (.ok (uf1, um1), att1) =>
       if um1 ≠ [] then (.error (.missingFiles um1), att1)
       else if uf1 ≠ [] then (.error (.unknownFiles uf1), att1)
       else (.ok (), att1)) := by
  obtain ⟨hm, hnd, hreal, hmsig, hload, hgood, hsig⟩ := hcs
  have hfiles : ((⟨gpkg_version, vsz, vdat⟩ :: pairs.map Prod.fst ++ [mEnt] ++ extras
      : List Entry).map Entry.name)
      = gpkg_version :: ((pairs.map Prod.fst).map Entry.name ++ [mEnt.name]
          ++ extras.map Entry.name) := by
    simp [List.map_append]
  rw [hfiles] at hnd
  have hrn : ∀ e ∈ pairs.map Prod.fst, Entry.name e ≠ "Manifest" := by
    intro e he
    exact (hreal e.name (List.mem_map_of_mem Entry.name he)).2
  have hrn2 : "Manifest" ∉ (pairs.map Prod.fst).map Entry.name := by
    intro hmem
    obtain ⟨e, he, hne⟩ := List.mem_map.mp hmem
    exact hrn e he hne
  have h1 : gpkg_version ≠ "Manifest" := by decide
  have hpre : ∀ e ∈ (⟨gpkg_version, vsz, vdat⟩ : Entry) :: pairs.map Prod.fst,
      Entry.name e ≠ "Manifest" := by
    intro e he
    rcases List.mem_cons.mp he with h | h
    · subst h
      exact h1
    · exact hrn e h
  have hgd : getData (⟨gpkg_version, vsz, vdat⟩ :: pairs.map Prod.fst ++ [mEnt] ++ extras)
      "Manifest" = mEnt.data := by
    unfold getData
    rw [show ((⟨gpkg_version, vsz, vdat⟩ :: pairs.map Prod.fst ++ [mEnt] ++ extras)
        : List Entry) = ((⟨gpkg_version, vsz, vdat⟩ :: pairs.map Prod.fst) ++ (mEnt :: extras))
        from by simp]
    rw [find?_name_append _ _ _ hpre]
    simp [List.find?, hm]
  unfold verify_binpkg
  rw [hfiles]
  rw [if_pos (List.mem_cons_self gpkg_version _)]
  rw [firstDup_none _ _ hnd (by simp)]
  simp only []
  rw [show pyRemove (gpkg_version :: ((pairs.map Prod.fst).map Entry.name ++ [mEnt.name]
      ++ extras.map Entry.name)) gpkg_version
      = (pairs.map Prod.fst).map Entry.name ++ [mEnt.name] ++ extras.map Entry.name from by
    simp [pyRemove]]
  rw [if_pos (show "Manifest" ∈ (pairs.map Prod.fst).map Entry.name ++ [mEnt.name]
      ++ extras.map Entry.name by simp [hm])]
  rw [hgd]
  rw [Bool.and_false]
  simp only [Bool.false_eq_true, if_false]
  rw [show pyRemove ((pairs.map Prod.fst).map Entry.name ++ [mEnt.name]
      ++ extras.map Entry.name) "Manifest"
      = (pairs.map Prod.fst).map Entry.name ++ extras.map Entry.name from by
    rw [List.append_assoc]
    rw [pyRemove_append_not_mem _ hrn2]
    rw [List.singleton_append]
    simp [pyRemove, hm]]
  rw [if_neg hmsig]
  unfold verify_rest
  simp only [hload]
  have hclean := check_files_clean
    ⟨H, libs, gpg, false, false,
      ⟨gpkg_version, vsz, vdat⟩ :: pairs.map Prod.fst ++ [mEnt] ++ extras,
      pairs.map Prod.snd ++ extraRecs⟩ rfl rfl
    (pairs.map (fun p => (p.1.name, p.2))) (extras.map Entry.name) extraRecs []
    (by
      intro q hq
      obtain ⟨p, hp, hpe⟩ := List.mem_map.mp hq
      rw [← hpe]
      exact hgood p hp)
    (by
      intro q hq
      obtain ⟨p, hp, hpe⟩ := List.mem_map.mp hq
      rw [← hpe]
      intro hmem
      apply hsig p hp
      simpa [List.map_map, Function.comp] using hmem)
  have hnames : pairs.map (Prod.fst ∘ fun p => (p.1.name, p.2))
      = (pairs.map Prod.fst).map Entry.name := by
    simp [Function.comp, List.map_map]
  have hrecs : pairs.map (Prod.snd ∘ fun p => (p.1.name, p.2)) = pairs.map Prod.snd := by
    simp [Function.comp]
  rw [List.map_map, List.map_map, hnames, hrecs] at hclean
  rw [hclean]

/-- Claim C3 as amended: after `_verify_binpkg` processes the entries of a
reconciled container, (i) no rejection occurs; (ii) a manifest record never
matched by an entry is rejected after the loop with the "Missing files"
digest error; (iii) a container entry with no matching manifest record is
rejected inside the loop with the "checksum not found" digest error (not
with "unknown files" as the claim stated); (iv) a leftover signature entry
with no base entry — the case the post-loop check actually catches — is
rejected with the "Unknown files exists" digest error. -/
theorem c3_amended :
    (∀ (H : String → String → String) (libs : List String)
       (gpg : String → String → Bool) (request : Bool) (vsz : Nat) (vdat : String)
       (mEnt : Entry) (pairs : List (Entry × List String)),
      cleanScenario H libs gpg vsz vdat mEnt pairs [] [] →
      verify_binpkg H libs gpg request false false
        (⟨gpkg_version, vsz, vdat⟩ :: pairs.map Prod.fst ++ [mEnt] ++ []) =
        (.ok (), [])) ∧
    (∀ (H : String → String → String) (libs : List String)
       (gpg : String → String → Bool) (request : Bool) (vsz : Nat) (vdat : String)
       (mEnt : Entry) (pairs : List (Entry × List String)) (xr : List String),
      cleanScenario H libs gpg vsz vdat mEnt pairs [] [xr] →
      verify_binpkg H libs gpg request false false
        (⟨gpkg_version, vsz, vdat⟩ :: pairs.map Prod.fst ++ [mEnt] ++ []) =
        (.error (.missingFiles [xr]), [])) ∧
    (∀ (H : String → String → String) (libs : List String)
       (gpg : String → String → Bool) (request : Bool) (vsz : Nat) (vdat : String)
       (mEnt : Entry) (pairs : List (Entry × List String)) (x : Entry),
      cleanScenario H libs gpg vsz vdat mEnt pairs [x] [] →
      pyEndsWith x.name ".sig" = false →
      lastMatch (pairs.map Prod.snd) x.name = none →
      verify_binpkg H libs gpg request false false
        (⟨gpkg_version, vsz, vdat⟩ :: pairs.map Prod.fst ++ [mEnt] ++ [x]) =
        (.error (.checksumNotFound x.name), [])) ∧
    (∀ (H : String → String → String) (libs : List String)
       (gpg : String → String → Bool) (request : Bool) (vsz : Nat) (vdat : String)
       (mEnt : Entry) (pairs : List (Entry × List String)) (s : Entry),
      cleanScenario H libs gpg vsz vdat mEnt pairs [s] [] →
      pyEndsWith s.name ".sig" = true →
      verify_binpkg H libs gpg request false false
        (⟨gpkg_version, vsz, vdat⟩ :: pairs.map Prod.fst ++ [mEnt] ++ [s]) =
        (.error (.unknownFiles [s.name]), [])) := by
  refine ⟨?_, ?_, ?_, ?_⟩
  · intro H libs gpg request vsz vdat mEnt pairs h
    rw [verify_clean_run H libs gpg request vsz vdat mEnt pairs [] [] h]
    simp [check_files]
  · intro H libs gpg request vsz vdat mEnt pairs xr h
    rw [verify_clean_run H libs gpg request vsz vdat mEnt pairs [] [xr] h]
    simp [check_files]
  · intro H libs gpg request vsz vdat mEnt pairs x h hsx hlmx
    rw [verify_clean_run H libs gpg request vsz vdat mEnt pairs [x] [] h]
    simp [check_files, check_one, hsx, hlmx]
  · intro H libs gpg request vsz vdat mEnt pairs s h hss
    rw [verify_clean_run H libs gpg request vsz vdat mEnt pairs [s] [] h]
    simp [check_files, check_one, hss]

/-- Witness for the amended C3 at a concrete container: an entry with no
manifest record is rejected with "checksum not found". -/
theorem c3_witness :
    verify_binpkg toyHash ["SHA512"] (fun _ _ => true) false false false
      [⟨"gpkg-1", 0, ""⟩, ⟨"f", 1, "d"⟩,
       ⟨"Manifest", 29, "MANIFEST f 1 SHA512 SHA512:d\n"⟩, ⟨"extra", 1, "y"⟩] =
      (.error (.checksumNotFound "extra"), []) :=
  c3_amended.2.2.1 toyHash ["SHA512"] (fun _ _ => true) false 0 ""
    ⟨"Manifest", 29, "MANIFEST f 1 SHA512 SHA512:d\n"⟩
    [(⟨"f", 1, "d"⟩, ["MANIFEST", "f", "1", "SHA512", "SHA512:d"])]
    ⟨"extra", 1, "y"⟩ (by decide) (by decide) (by decide)

/-- The first pass of `_get_inner_tarinfo` returns an entry of the container. -/
theorem find_inner_base_mem (b fn : String) :
    ∀ (l : List Entry) (e : Entry) (c : Option String),
      find_inner_base b fn l = some (e, c) → e ∈ l := by
  intro l
  induction l with
  | nil =>
    intro e c h
    cases h
  | cons x rest ih =>
    intro e c h
    unfold find_inner_base at h
    by_cases hd : pyDirname x.name = b
    · rw [if_pos hd] at h
      cases hx : extract_filename_compression x.name with
      | error e1 =>
        simp only [hx] at h
        exact List.mem_cons_of_mem _ (ih e c h)
      | ok p =>
        obtain ⟨n, cc⟩ := p
        simp only [hx] at h
        by_cases hn : n = fn
        · rw [if_pos hn] at h
          injection h with h1
          injection h1 with h2 h3
          rw [← h2]
          exact List.mem_cons_self _ _
        · rw [if_neg hn] at h
          exact List.mem_cons_of_mem _ (ih e c h)
    · rw [if_neg hd] at h
      exact List.mem_cons_of_mem _ (ih e c h)

/-- The fallback pass of `_get_inner_tarinfo` returns an entry of the
container. -/
theorem find_inner_any_mem (fn : String) :
    ∀ (l : List Entry) (e : Entry) (c : Option String),
      find_inner_any fn l = some (e, c) → e ∈ l := by
  intro l
  induction l with
  | nil =>
    intro e c h
    cases h
  | cons x rest ih =>
    intro e c h
    unfold find_inner_any at h
    cases hx : extract_filename_compression x.name with
    | error e1 =>
      simp only [hx] at h
      exact List.mem_cons_of_mem _ (ih e c h)
    | ok p =>
      obtain ⟨n, cc⟩ := p
      simp only [hx] at h
      by_cases hn : n = fn
      · rw [if_pos hn] at h
        injection h with h1
        injection h1 with h2 h3
        rw [← h2]
        exact List.mem_cons_self _ _
      · rw [if_neg hn] at h
        exact List.mem_cons_of_mem _ (ih e c h)

/-- `_get_inner_tarinfo` returns an entry of the container. -/
theorem get_inner_mem (b : Option String) (es : List Entry) (fn : String)
    (e : Entry) (c : Option String)
    (h : get_inner_tarinfo b es fn = .ok (e, c)) : e ∈ es := by
  unfold get_inner_tarinfo at h
  by_cases hv : gpkg_version ∈ es.map Entry.name
  · rw [if_pos hv] at h
    cases h1 : find_inner_base (b.getD "") fn es with
    | some r =>
      simp only [h1] at h
      obtain ⟨e1, c1⟩ := r
      injection h with h2
      injection h2 with h3 h4
      rw [← h3]
      exact find_inner_base_mem _ _ es e1 c1 h1
    | none =>
      simp only [h1] at h
      cases h2 : find_inner_any fn es with
      | some r =>
        simp only [h2] at h
        obtain ⟨e1, c1⟩ := r
        injection h with h3
        injection h3 with h4 h5
        rw [← h4]
        exact find_inner_any_mem _ es e1 c1 h2
      | none =>
        simp only [h2] at h
        cases h
  · rw [if_neg hv] at h
    cases h

/-- A path is different from itself extended with a dot-suffix (the
process-unique temporary name of `update_metadata`). -/
theorem ne_append_dot (s t : String) : s ≠ s ++ "." ++ t := by
  intro hcontra
  have hl := congrArg String.length hcontra
  rw [String.length_append, String.length_append] at hl
  have h1 : (".").length = 1 := rfl
  omega

/-- Claim C7: `update_metadata` writes the version marker, the fresh
metadata entries and a fresh Manifest into a temporary container named
`<path>.<pid>`; the existing image entry (an entry of the old container)
and its signature entry, when present, are carried over byte-for-byte; the
old image's manifest record is carried into the new Manifest unchanged; the
accumulated record list is cleared at the start (the result is independent
of it); and the original path is only replaced by the rename at the end,
every other path being untouched. -/
theorem c7_update_metadata (H : String → String → String) (libs : List String)
    (gpg : String → String → Bool) (request verify : Bool)
    (sign : Option (String → String)) (base_name : Option String)
    (comp : Option (String × (String → String)))
    (mkTar : List (String × String) → String) (fs : FS) (gpkg_file : String)
    (pid : Nat) (metadata : List (String × String)) (checksums0 : List (List String))
    (old : GFile) (mdEs : List Entry) (cs1 : List (List String))
    (imgE : Entry) (ic : Option String) (mOld : List (List String))
    (imgRec : List String)
    (hold : fs gpkg_file = some old)
    (hver : (verify_binpkg H libs gpg request verify false old.entries).1 = .ok ())
    (hmd : add_metadata H libs sign (base_name.getD "") comp mkTar metadata []
      = .ok (mdEs, cs1))
    (himg : get_inner_tarinfo base_name old.entries "image" = .ok (imgE, ic))
    (hman : load_manifest (getData old.entries "Manifest") = .ok mOld)
    (hrec : mOld.find? (fun m => recName m = imgE.name) = some imgRec) :
    ∃ fs2,
      update_metadata H libs gpg request verify sign base_name comp mkTar fs gpkg_file
        pid metadata checksums0 = .ok fs2 ∧
      fs2 (gpkg_file ++ "." ++ toString pid) = none ∧
      fs2 gpkg_file = some ⟨old.format,
        ⟨gpkg_version, 0, ""⟩ :: mdEs ++ [imgE] ++
          (match old.entries.find? (fun e => e.name = imgE.name ++ ".sig") with
           | some e => [e]
           | none => []) ++
          add_manifest sign (cs1 ++ [imgRec])⟩ ∧
      imgE ∈ old.entries ∧
      imgRec ∈ mOld ∧
      (∀ q, q ≠ gpkg_file → q ≠ gpkg_file ++ "." ++ toString pid → fs2 q = fs q) ∧
      (∀ cs0 : List (List String),
        update_metadata H libs gpg request verify sign base_name comp mkTar fs gpkg_file
          pid metadata cs0 =
        update_metadata H libs gpg request verify sign base_name comp mkTar fs gpkg_file
          pid metadata checksums0) := by
  have hne : gpkg_file ≠ gpkg_file ++ "." ++ toString pid := ne_append_dot _ _
  refine ⟨fsMove (fsSet fs (gpkg_file ++ "." ++ toString pid)
      ⟨old.format,
        ⟨gpkg_version, 0, ""⟩ :: mdEs ++ [imgE] ++
          (match old.entries.find? (fun e => e.name = imgE.name ++ ".sig") with
           | some e => [e]
           | none => []) ++
          add_manifest sign (cs1 ++ [imgRec])⟩)
      (gpkg_file ++ "." ++ toString pid) gpkg_file, ?_, ?_, ?_,
    get_inner_mem _ _ _ _ _ himg,
    List.mem_of_find?_eq_some hrec, ?_, fun cs0 => rfl⟩
  · unfold update_metadata
    simp only [hold, hver, hmd, himg, hman, hrec]
  · simp [fsMove]
  · simp [fsMove, fsSet, hne]
  · intro q hq1 hq2
    simp [fsMove, fsSet, hq1, hq2]

/-- Witness for C7: on a concrete one-image container that passes
verification, `update_metadata` succeeds, removes the temporary file, and
rewrites the package with the new metadata entry, the copied image entry,
and a regenerated Manifest carrying the old image record. -/
theorem c7_witness :
    ∃ fs2,
      update_metadata toyHash ["SHA512"] (fun _ _ => true) false false none (some "test")
        none (fun _ => "T")
        (fun q => if q = "pkg.tar" then
            some ⟨TarFormat.ustar,
              [⟨gpkg_version, 0, ""⟩, ⟨"test/image.tar", 1, "D"⟩,
               ⟨"Manifest", 42, "MANIFEST test/image.tar 1 SHA512 SHA512:D\n"⟩]⟩
          else none)
        "pkg.tar" 42 [("m", "v")] [] = .ok fs2 ∧
      fs2 "pkg.tar.42" = none ∧
      fs2 "pkg.tar" = some ⟨TarFormat.ustar,
        ⟨gpkg_version, 0, ""⟩ :: [⟨"test/metadata.tar", 1, "T"⟩] ++
          [⟨"test/image.tar", 1, "D"⟩] ++ [] ++
          add_manifest none
            [["MANIFEST", "test/metadata.tar", "1", "SHA512", "SHA512:T"],
             ["MANIFEST", "test/image.tar", "1", "SHA512", "SHA512:D"]]⟩ := by
  obtain ⟨fs2, h1, h2, h3, -⟩ :=
    c7_update_metadata toyHash ["SHA512"] (fun _ _ => true) false false none (some "test")
      none (fun _ => "T")
      (fun q => if q = "pkg.tar" then
          some ⟨TarFormat.ustar,
            [⟨gpkg_version, 0, ""⟩, ⟨"test/image.tar", 1, "D"⟩,
             ⟨"Manifest", 42, "MANIFEST test/image.tar 1 SHA512 SHA512:D\n"⟩]⟩
        else none)
      "pkg.tar" 42 [("m", "v")] []
      ⟨TarFormat.ustar,
        [⟨gpkg_version, 0, ""⟩, ⟨"test/image.tar", 1, "D"⟩,
         ⟨"Manifest", 42, "MANIFEST test/image.tar 1 SHA512 SHA512:D\n"⟩]⟩
      [⟨"test/metadata.tar", 1, "T"⟩]
      [["MANIFEST", "test/metadata.tar", "1", "SHA512", "SHA512:T"]]
      ⟨"test/image.tar", 1, "D"⟩ none
      [["MANIFEST", "test/image.tar", "1", "SHA512", "SHA512:D"]]
      ["MANIFEST", "test/image.tar", "1", "SHA512", "SHA512:D"]
      (by decide) (by decide) (by decide) (by decide) (by decide) (by decide)
  exact ⟨fs2, h1, h2, h3⟩

end Gpkg
